import Mathlib

/-!
Verification development for a graph-based workflow execution engine
(`app/engine.py`, `app/workflows.py`).

The engine is embedded shallowly:
* Python dicts become insertion-ordered association lists over a small
  value universe `Value` (numbers, strings, lists of strings, booleans);
  `dict.update` becomes a left fold of key overwrites.
* Python exceptions become `Except String`: a node's processing function,
  a loop predicate and an edge guard each return `Except String _`, the
  string being `str(e)` of the raised exception.
* The `while current_node_id:` loop of `WorkflowGraph.run` becomes the
  fuel-indexed `runAux` over the single-visit transition `step`; note the
  loop condition is a Python *falsy* test, so an empty-string node id
  terminates the loop, and `if not self.start_node` likewise treats an
  empty-string start node as missing.
* Python floats (only the quality score of the example workflow computes
  one) are embedded as exact rationals; no theorem below observes a value
  where rounding could differ.
-/

namespace WfEngine

/-- Value universe of the execution state (Python dict values used by the
engine and the example workflow: numbers, strings, lists of strings,
booleans). -/
inductive Value where
  | num (q : ℚ)
  | str (s : String)
  | list (l : List String)
  | bool (b : Bool)
deriving DecidableEq, Repr

/-- An execution state: a Python dict `str -> value`, embedded as an
insertion-ordered association list. -/
abbrev StateD := List (String × Value)

/-- Per-run loop counters: the Python dict `loop_counter`. -/
abbrev Counters := List (String × Nat)

/-- Dict lookup `d[k]` / `d.get(k)`: first (unique) binding of `k`. -/
def lookupA {α : Type} (l : List (String × α)) (k : String) : Option α :=
  (l.find? (fun p => p.1 = k)).map (fun p => p.2)

/-- Dict write `d[k] = v`: overwrite in place if the key exists (Python
dicts keep the original key position), else append a new binding. -/
def setA {α : Type} (l : List (String × α)) (k : String) (v : α) :
    List (String × α) :=
  if l.any (fun p => p.1 = k) then
    l.map (fun p => if p.1 = k then (k, v) else p)
  else
    l ++ [(k, v)]

/-- Dict read with default: `d.get(k, dflt)`. -/
def getA {α : Type} (l : List (String × α)) (k : String) (dflt : α) : α :=
  (lookupA l k).getD dflt

/-- Embeds `state.update(result)`: fold the partial update into the state by key
overwrite, in the update's insertion order. -/
def updateD (s upd : StateD) : StateD :=
  upd.foldl (fun acc p => setA acc p.1 p.2) s

/-- Embeds `loop_counter.get(node_id, 0)`. -/
def ctrGet (c : Counters) (k : String) : Nat :=
  getA c k 0

/-- Node kinds (`NodeType`). -/
inductive NodeType where
  | standard
  | branch
  | loop
deriving DecidableEq, Repr

/-- Embeds `ExecutionLog`: log entry for a single node execution. -/
structure ExecutionLog where
  node_id : String
  status : String
  input_state : StateD
  output_state : StateD
  error : Option String := none
deriving DecidableEq, Repr

/-- Embeds `WorkflowNode`: id, processing function, kind, optional loop predicate,
max-iteration bound (default 10). Raising Python callables are embedded as
`Except String`-valued functions. -/
structure WorkflowNode where
  id : String
  fn : StateD → Except String StateD
  node_type : NodeType := NodeType.standard
  loop_condition : Option (StateD → Except String Bool) := none
  max_iterations : Nat := 10

/-- Embeds `WorkflowEdge`: source, destination, optional guard. -/
structure WorkflowEdge where
  from_node : String
  to_node : String
  condition : Option (StateD → Except String Bool) := none

/-- Embeds `WorkflowGraph` structure: node dict, insertion-ordered edge list,
optional start node, terminal set. -/
structure WorkflowGraph where
  nodes : List (String × WorkflowNode) := []
  edges : List WorkflowEdge := []
  start_node : Option String := none
  end_nodes : List String := []

/-- Embeds `WorkflowGraph.add_node`: reject duplicate ids; the first node added
becomes the start node (the Python check is `is None`, not falsiness). -/
def add_node (g : WorkflowGraph) (node_id : String)
    (fn : StateD → Except String StateD)
    (node_type : NodeType := NodeType.standard)
    (loop_condition : Option (StateD → Except String Bool) := none)
    (max_iterations : Nat := 10) : Except String WorkflowGraph :=
  if g.nodes.any (fun p => p.1 = node_id) then
    Except.error ("Node \x27" ++ node_id ++ "\x27 already exists")
  else
    Except.ok
      { g with
        nodes := g.nodes ++
          [(node_id,
            { id := node_id, fn := fn, node_type := node_type,
              loop_condition := loop_condition,
              max_iterations := max_iterations })]
        start_node :=
          match g.start_node with
          | none => some node_id
          | some s => some s }

/-- Embeds `WorkflowGraph.add_edge`: both endpoints must exist; edges are appended
in insertion order. -/
def add_edge (g : WorkflowGraph) (from_node to_node : String)
    (condition : Option (StateD → Except String Bool) := none) :
    Except String WorkflowGraph :=
  if ¬ g.nodes.any (fun p => p.1 = from_node) then
    Except.error ("From node \x27" ++ from_node ++ "\x27 does not exist")
  else if ¬ g.nodes.any (fun p => p.1 = to_node) then
    Except.error ("To node \x27" ++ to_node ++ "\x27 does not exist")
  else
    Except.ok { g with edges := g.edges ++
      [{ from_node := from_node, to_node := to_node, condition := condition }] }

/-- Embeds `WorkflowGraph.set_start_node`. -/
def set_start_node (g : WorkflowGraph) (node_id : String) :
    Except String WorkflowGraph :=
  if ¬ g.nodes.any (fun p => p.1 = node_id) then
    Except.error ("Node \x27" ++ node_id ++ "\x27 does not exist")
  else
    Except.ok { g with start_node := some node_id }

/-- Embeds `WorkflowGraph.set_end_nodes`. -/
def set_end_nodes (g : WorkflowGraph) (node_ids : List String) :
    Except String WorkflowGraph :=
  if node_ids.any (fun n => ¬ g.nodes.any (fun p => p.1 = n)) then
    Except.error "Node does not exist"
  else
    Except.ok { g with end_nodes := node_ids }

/-- Body of the loop of `_get_next_nodes`: walk the outgoing edges in
order; an unguarded edge always contributes its destination, a guarded one
contributes it iff the guard returns true; a raising guard propagates. -/
def evalEdges : List WorkflowEdge → StateD → Except String (List String)
  | [], _ => Except.ok []
  | e :: es, s =>
    match e.condition with
    | some c =>
      match c s with
      | Except.error m => Except.error m
      | Except.ok b =>
        match evalEdges es s with
        | Except.error m => Except.error m
        | Except.ok rest => Except.ok (if b then e.to_node :: rest else rest)
    | none =>
      match evalEdges es s with
      | Except.error m => Except.error m
      | Except.ok rest => Except.ok (e.to_node :: rest)

/-- Embeds `WorkflowGraph._get_next_nodes`: filter this node's outgoing edges,
then evaluate guards in insertion order. -/
def getNextNodes (g : WorkflowGraph) (current_node : String) (s : StateD) :
    Except String (List String) :=
  evalEdges (g.edges.filter (fun e => e.from_node = current_node)) s

/-- The loop-limit error message
`f"Node '{id}' exceeded max iterations ({max})"`. -/
def limitMsg (node_id : String) (max_iterations : Nat) : String :=
  "Node \x27" ++ node_id ++ "\x27 exceeded max iterations (" ++
    toString max_iterations ++ ")"

/-- Result of one iteration of the `while` loop in `run`: continue at a
node, terminate normally, or propagate an exception (carrying the log
accumulated so far, error entry included). -/
inductive StepResult where
  | next (current_node : String) (state : StateD) (logs : List ExecutionLog)
      (ctr : Counters)
  | done (state : StateD) (logs : List ExecutionLog)
  | fail (msg : String) (logs : List ExecutionLog)
deriving Repr

/-- Lines 203-224 of `run`: evaluate outgoing edges. Zero eligible ends the
run (at most a warning is logged when the node is not terminal); otherwise
control moves to the first eligible destination. `input_state` is the
pre-execution snapshot, kept for a possible error entry when a guard
raises. -/
def edgePhase (g : WorkflowGraph) (current_node : String)
    (input_state s : StateD) (logs : List ExecutionLog) (ctr : Counters) :
    StepResult :=
  match getNextNodes g current_node s with
  | Except.error m =>
    StepResult.fail m (logs ++
      [{ node_id := current_node, status := "error", input_state := input_state,
         output_state := s, error := some m }])
  | Except.ok [] => StepResult.done s logs
  | Except.ok (n :: _) => StepResult.next n s logs ctr

/-- Lines 192-224 of `run`, after the node function succeeded and the
success entry was logged: for a loop node with a predicate evaluate it on
the post-update state (true: stay at the node keeping the counter; false:
reset the counter and evaluate edges; raise: error entry plus re-raise);
otherwise go straight to edge evaluation. -/
def stepAfter (g : WorkflowGraph) (node : WorkflowNode)
    (current_node : String) (input_state s2 : StateD)
    (logs2 : List ExecutionLog) (ctr1 : Counters) : StepResult :=
  match node.node_type, node.loop_condition with
  | NodeType.loop, some cond =>
    match cond s2 with
    | Except.error m =>
      StepResult.fail m (logs2 ++
        [{ node_id := current_node, status := "error",
           input_state := input_state, output_state := s2,
           error := some m }])
    | Except.ok true => StepResult.next current_node s2 logs2 ctr1
    | Except.ok false =>
      edgePhase g current_node input_state s2 logs2
        (setA ctr1 current_node 0)
  | _, _ => edgePhase g current_node input_state s2 logs2 ctr1

/-- Lines 180-190 of `run`: invoke the node function on the live state; on
success merge the returned partial map by key overwrite and append the
success entry; on a raise append the error entry and propagate. -/
def stepFn (g : WorkflowGraph) (node : WorkflowNode) (current_node : String)
    (s : StateD) (logs : List ExecutionLog) (ctr1 : Counters) : StepResult :=
  match node.fn s with
  | Except.error m =>
    StepResult.fail m (logs ++
      [{ node_id := current_node, status := "error", input_state := s,
         output_state := s, error := some m }])
  | Except.ok result =>
    stepAfter g node current_node s (updateD s result)
      (logs ++
        [{ node_id := current_node, status := "success", input_state := s,
           output_state := updateD s result, error := none }])
      ctr1

/-- Lines 166-169 of `run`: `loop_counter[id] = loop_counter.get(id, 0)+1`
for a loop node; any other kind leaves the counters alone. -/
def bumpCtr (node : WorkflowNode) (current_node : String) (ctr : Counters) :
    Counters :=
  if node.node_type = NodeType.loop then
    setA ctr current_node (ctrGet ctr current_node + 1)
  else ctr

/-- Lines 162-179 of `run`: for a loop node bump its per-run counter; if
the counter now exceeds the bound and no loop predicate is attached, raise
the loop-limit error (the error entry snapshots the unchanged state: the
node function is not invoked). -/
def stepNode (g : WorkflowGraph) (node : WorkflowNode)
    (current_node : String) (s : StateD) (logs : List ExecutionLog)
    (ctr : Counters) : StepResult :=
  if node.node_type = NodeType.loop ∧
      ctrGet (bumpCtr node current_node ctr) current_node >
        node.max_iterations ∧
      node.loop_condition.isNone = true then
    StepResult.fail (limitMsg current_node node.max_iterations)
      (logs ++
        [{ node_id := current_node, status := "error", input_state := s,
           output_state := s,
           error := some (limitMsg current_node node.max_iterations) }])
  else stepFn g node current_node s logs (bumpCtr node current_node ctr)

/-- One iteration of the `while` loop of `WorkflowGraph.run` (lines
158-237). `self.nodes[current_node_id]` (line 159) sits outside the `try`,
so an unknown id raises KeyError with no log entry. -/
def step (g : WorkflowGraph) (current_node : String) (s : StateD)
    (logs : List ExecutionLog) (ctr : Counters) : StepResult :=
  match lookupA g.nodes current_node with
  | none => StepResult.fail ("KeyError: \x27" ++ current_node ++ "\x27") logs
  | some node => stepNode g node current_node s logs ctr

/-- Outcome of a run: normal return `(final_state, logs)`, a propagated
exception, or out of fuel (the Python loop is still running).

The log in `err` is a *ghost record* of the function-local `logs` list at
the moment of the re-raise (the error entry of line 235 has just been
appended to it). It is **not** part of what propagates: line 237 is a bare
`raise` of the original exception, so the local list is discarded and the
caller receives only the exception — `run` returns `logs` on success
alone. `callerView` below extracts the caller-visible part. -/
inductive RunOutcome where
  | ok (state : StateD) (logs : List ExecutionLog)
  | err (msg : String) (logs : List ExecutionLog)
  | out (current_node : String) (state : StateD) (logs : List ExecutionLog)
      (ctr : Counters)
deriving Repr

/-- What escapes `run` to its caller (`main.py` catches the exception and
surfaces `str(e)`; the tests likewise see only the exception): the
returned `(final_state, logs)` pair on success, and on failure just the
re-raised exception's message — the bare `raise` at line 237 carries no
log. (`out` has no caller-visible value, the Python loop being still
under way; it is mapped to an error no run produces.) -/
def callerView : RunOutcome → Except String (StateD × List ExecutionLog)
  | RunOutcome.ok s l => Except.ok (s, l)
  | RunOutcome.err m _ => Except.error m
  | RunOutcome.out _ _ _ _ => Except.error "<still running>"

/-- The `while current_node_id:` loop, fuel-indexed. The guard is a Python
falsy test, so an empty-string node id ends the loop as `None` does. -/
def runAux (g : WorkflowGraph) :
    Nat → String → StateD → List ExecutionLog → Counters → RunOutcome
  | 0, current_node, s, logs, ctr =>
    if current_node = "" then RunOutcome.ok s logs
    else RunOutcome.out current_node s logs ctr
  | fuel + 1, current_node, s, logs, ctr =>
    if current_node = "" then RunOutcome.ok s logs
    else
      match step g current_node s logs ctr with
      | StepResult.next n s2 l2 c2 => runAux g fuel n s2 l2 c2
      | StepResult.done s2 l2 => RunOutcome.ok s2 l2
      | StepResult.fail m l2 => RunOutcome.err m l2

/-- Embeds `WorkflowGraph.run`: `if not self.start_node` is a falsy test (both
`None` and the empty string raise `ValueError("No start node defined")`);
otherwise the run copies the initial state and traverses from the start
node with empty log and counters. -/
def run (g : WorkflowGraph) (initial_state : StateD) (fuel : Nat) :
    RunOutcome :=
  match g.start_node with
  | none => RunOutcome.err "No start node defined" []
  | some st =>
    if st = "" then RunOutcome.err "No start node defined" []
    else runAux g fuel st initial_state [] []

/-! ### The code-review example workflow (`app/workflows.py`)

Node functions read Python dict values dynamically; arithmetic on a
non-numeric value raises `TypeError` and `.split` on a non-string raises
`AttributeError`. These runtime errors are embedded as `Except.error` with
a representative message (no theorem inspects their text). -/

/-- Does `pat` occur at the head of `text`? (`str.startswith`, and the
matching step of `str.split`.) -/
def leadsWith : List Char → List Char → Bool
  | [], _ => true
  | _ :: _, [] => false
  | a :: as, b :: bs => a == b && leadsWith as bs

/-- Left-to-right non-overlapping split on a (non-empty) separator, the
worker of `str.split(sep)`; `fuel` bounds the scan by the text length. -/
def splitOnAuxC (sep : List Char) : Nat → List Char → List Char →
    List (List Char)
  | 0, acc, _ => [acc.reverse]
  | _ + 1, acc, [] => [acc.reverse]
  | fuel + 1, acc, c :: rest =>
    if leadsWith sep (c :: rest) then
      acc.reverse :: splitOnAuxC sep fuel [] (List.drop sep.length (c :: rest))
    else
      splitOnAuxC sep fuel (c :: acc) rest

/-- Embeds `s.split(sep)` for non-empty `sep` (every use below passes a non-empty
literal separator). -/
def splitOnC (s sep : String) : List String :=
  (splitOnAuxC sep.data (s.data.length + 1) [] s.data).map
    (fun l => String.mk l)

/-- Embeds `str.strip()`: drop leading and trailing whitespace. -/
def trimC (s : String) : String :=
  String.mk
    (((s.data.dropWhile Char.isWhitespace).reverse.dropWhile
      Char.isWhitespace).reverse)

/-- Python numeric coercion for `+`/`<`/`>` contexts: ints, floats and
booleans are numbers; a string or list operand raises `TypeError`. -/
def asNumber : Value → Except String ℚ
  | Value.num q => Except.ok q
  | Value.bool b => Except.ok (if b then 1 else 0)
  | Value.str _ => Except.error "TypeError: str is not a number"
  | Value.list _ => Except.error "TypeError: list is not a number"

/-- Embeds `line.strip().startswith("def ")` and, when it matches,
`line.split("def ")[1].split("(")[0]`. -/
def defLineName (line : String) : Option String :=
  if leadsWith "def ".data (trimC line).data then
    some ((splitOnC ((splitOnC line "def ").getD 1 "") "(").headD "")
  else none

/-- Embeds `len(line) - len(line.lstrip())`: number of leading whitespace
characters. -/
def indentLevel (line : String) : Nat :=
  (line.toList.takeWhile Char.isWhitespace).length

/-- Python `s.count(pat)` for non-empty `pat`: non-overlapping
occurrences, scanning left to right. -/
def countOcc (s pat : String) : Nat :=
  (splitOnC s pat).length - 1

/-- Node 1 `extract_functions`: collect the names of lines whose stripped
form starts with `def `, and bump the iteration counter read from the
state (a non-numeric `iteration` value raises `TypeError` in
`state.get("iteration", 0) + 1`). -/
def extract_functions (s : StateD) : Except String StateD :=
  match getA s "code" (Value.str "") with
  | Value.str code =>
    let functions := (splitOnC code "\n").filterMap defLineName
    match asNumber (getA s "iteration" (Value.num 0)) with
    | Except.error m => Except.error m
    | Except.ok it =>
      Except.ok
        [("functions", Value.list functions),
         ("function_count", Value.num (functions.length : ℚ)),
         ("iteration", Value.num (it + 1))]
  | _ => Except.error "AttributeError: no attribute split"

/-- Node 2 `check_complexity`: count lines indented deeper than 8 and
score `max(0, 100 - 5 * issues)`. -/
def check_complexity (s : StateD) : Except String StateD :=
  match getA s "code" (Value.str "") with
  | Value.str code =>
    let lines := splitOnC code "\n"
    let complexity_issues := (lines.filter (fun line => indentLevel line > 8)).length
    let complexity_score : ℚ := max 0 (100 - (complexity_issues : ℚ) * 5)
    Except.ok
      [("complexity_issues", Value.num (complexity_issues : ℚ)),
       ("complexity_score", Value.num complexity_score)]
  | _ => Except.error "AttributeError: no attribute split"

/-- Node 3 `detect_issues`: long-function, missing-docstring and
unused-import heuristics over the code text and the `function_count`
gathered by node 1. -/
def detect_issues (st : StateD) : Except String StateD :=
  match getA st "code" (Value.str "") with
  | Value.str code =>
    match asNumber (getA st "function_count" (Value.num 0)) with
    | Except.error m => Except.error m
    | Except.ok func_count =>
      let issues1 : List String :=
        if countOcc code "\n" > 30 then ["Long function"] else []
      let docstring_count := countOcc code "\x22\x22\x22"
      let issues2 := issues1 ++
        (if (docstring_count : ℚ) < func_count then ["Missing docstrings"] else [])
      let issues3 := issues2 ++
        (if countOcc code "import" > 0 ∧ (countOcc code "import" : ℚ) > func_count
         then ["Potential unused imports"] else [])
      Except.ok
        [("issues", Value.list issues3),
         ("issue_count", Value.num (issues3.length : ℚ))]
  | _ => Except.error "AttributeError: no attribute split"

/-- Node 4 `suggest_improvements`: suggestions from the detected issues
and a clamped quality score (`0.1` becomes the exact rational `1/10`;
`issues` is list-valued whenever node 3 produced it). -/
def suggest_improvements (st : StateD) : Except String StateD :=
  match getA st "issues" (Value.list []) with
  | Value.list issues =>
    match asNumber (getA st "complexity_score" (Value.num 50)) with
    | Except.error m => Except.error m
    | Except.ok complexity_score =>
      match asNumber (getA st "issue_count" (Value.num 0)) with
      | Except.error m => Except.error m
      | Except.ok issue_count =>
        let s1 : List String :=
          if issue_count > 2 then ["Refactor into smaller functions"] else []
        let s2 := s1 ++
          (if complexity_score < 60 then ["Reduce nesting depth"] else [])
        let s3 := s2 ++
          (if issues.contains "Missing docstrings"
           then ["Add comprehensive docstrings"] else [])
        let s4 := s3 ++
          (if issues.contains "Potential unused imports"
           then ["Clean up imports"] else [])
        let quality_score : ℚ :=
          max 0 (min 100 (100 - issue_count * 10 -
            (max 0 (100 - complexity_score)) * (1 / 10)))
        Except.ok
          [("suggestions", Value.list s4),
           ("quality_score", Value.num quality_score)]
  | _ => Except.error "TypeError: argument not iterable"

/-- The graph assembled by `setup_code_review_workflow`: linear flow
`extract → complexity → detect_issues → suggest`, start `extract`,
terminal set `{suggest}`. -/
def codeReviewGraph : WorkflowGraph :=
  { nodes :=
      [("extract", { id := "extract", fn := extract_functions }),
       ("complexity", { id := "complexity", fn := check_complexity }),
       ("detect_issues", { id := "detect_issues", fn := detect_issues }),
       ("suggest", { id := "suggest", fn := suggest_improvements })],
    edges :=
      [{ from_node := "extract", to_node := "complexity" },
       { from_node := "complexity", to_node := "detect_issues" },
       { from_node := "detect_issues", to_node := "suggest" }],
    start_node := some "extract",
    end_nodes := ["suggest"] }

/-- Embeds `setup_code_review_workflow`: the builder calls, in source order. -/
def setup_code_review_workflow : Except String WorkflowGraph := do
  let g0 : WorkflowGraph := {}
  let g1 ← add_node g0 "extract" extract_functions
  let g2 ← add_node g1 "complexity" check_complexity
  let g3 ← add_node g2 "detect_issues" detect_issues
  let g4 ← add_node g3 "suggest" suggest_improvements
  let g5 ← add_edge g4 "extract" "complexity"
  let g6 ← add_edge g5 "complexity" "detect_issues"
  let g7 ← add_edge g6 "detect_issues" "suggest"
  let g8 ← set_start_node g7 "extract"
  let g9 ← set_end_nodes g8 ["suggest"]
  Except.ok g9

/-! ### Association-list lemmas -/

theorem lookupA_nil {α : Type} (k : String) :
    lookupA ([] : List (String × α)) k = none := rfl

theorem lookupA_cons {α : Type} (p : String × α) (l : List (String × α))
    (k : String) :
    lookupA (p :: l) k = if p.1 = k then some p.2 else lookupA l k := by
  by_cases h : p.1 = k <;> simp [lookupA, List.find?_cons, h]

theorem lookupA_append {α : Type} (l1 l2 : List (String × α)) (k : String) :
    lookupA (l1 ++ l2) k =
      match lookupA l1 k with
      | some v => some v
      | none => lookupA l2 k := by
  induction l1 with
  | nil => simp [lookupA]
  | cons hd tl ih => by_cases h : hd.1 = k <;> simp [lookupA_cons, h, ih]

theorem lookupA_eq_none_of_not_any {α : Type} (l : List (String × α))
    (k : String) (h : ¬ l.any (fun p => p.1 = k) = true) :
    lookupA l k = none := by
  induction l with
  | nil => rfl
  | cons hd tl ih =>
    simp only [List.any_cons, Bool.or_eq_true, decide_eq_true_eq] at h
    push_neg at h
    rw [lookupA_cons, if_neg h.1]
    exact ih (by simpa using h.2)

theorem lookupA_mapOverwrite {α : Type} (l : List (String × α))
    (k k' : String) (v : α) :
    lookupA (l.map (fun p => if p.1 = k then (k, v) else p)) k' =
      if k' = k then (if l.any (fun p => p.1 = k) then some v else none)
      else lookupA l k' := by
  induction l with
  | nil => by_cases h : k' = k <;> simp [lookupA, h]
  | cons hd tl ih =>
    by_cases hk : hd.1 = k
    · by_cases h : k' = k
      · subst h
        simp [lookupA_cons, hk, ih]
      · simp [lookupA_cons, hk, ih, h, Ne.symm h]
    · by_cases h2 : hd.1 = k'
      · have h : ¬ k' = k := by rw [← h2]; exact hk
        simp [lookupA_cons, hk, h2, h]
      · by_cases h3 : k' = k
        · subst h3
          simp [lookupA_cons, hk, h2, ih]
          have hd1 : (decide (hd.1 = k')) = false := by simp [hk]
          rw [hd1, Bool.false_or]
        · simp [lookupA_cons, hk, h2, h3, ih]

theorem lookupA_setA {α : Type} (l : List (String × α)) (k k' : String)
    (v : α) :
    lookupA (setA l k v) k' = if k' = k then some v else lookupA l k' := by
  by_cases hmem : l.any (fun p => p.1 = k) = true
  · simp [setA, hmem, lookupA_mapOverwrite]
  · rw [setA, if_neg hmem, lookupA_append]
    by_cases h : k' = k
    · subst h
      rw [lookupA_eq_none_of_not_any _ _ hmem]
      simp [lookupA_cons]
    · rw [if_neg h]
      cases hl : lookupA l k' with
      | some w => simp
      | none => simp [hl, lookupA_cons, Ne.symm h, lookupA]

theorem getA_setA {α : Type} (l : List (String × α)) (k k' : String)
    (v dflt : α) :
    getA (setA l k v) k' dflt = if k' = k then v else getA l k' dflt := by
  rw [getA, lookupA_setA]
  by_cases h : k' = k <;> simp [h, getA]

theorem ctrGet_setA (c : Counters) (k k' : String) (v : Nat) :
    ctrGet (setA c k v) k' = if k' = k then v else ctrGet c k' := by
  simp [ctrGet, getA_setA]

/-! ### Log shapes of the transition function and the run -/

/-- The log carried by a `StepResult`. -/
def stepLogs : StepResult → List ExecutionLog
  | StepResult.next _ _ l _ => l
  | StepResult.done _ l => l
  | StepResult.fail _ l => l

/-- The log carried by a `RunOutcome`. -/
def runLogs : RunOutcome → List ExecutionLog
  | RunOutcome.ok _ l => l
  | RunOutcome.err _ l => l
  | RunOutcome.out _ _ l _ => l

theorem edgePhase_logs_mono (g : WorkflowGraph) (cur : String)
    (inS s : StateD) (logs : List ExecutionLog) (ctr : Counters) :
    ∃ t, stepLogs (edgePhase g cur inS s logs ctr) = logs ++ t := by
  unfold edgePhase
  split
  · exact ⟨_, rfl⟩
  · exact ⟨[], (List.append_nil logs).symm⟩
  · exact ⟨[], (List.append_nil logs).symm⟩

theorem stepAfter_logs_mono (g : WorkflowGraph) (node : WorkflowNode)
    (cur : String) (inS s2 : StateD) (logs2 : List ExecutionLog)
    (ctr1 : Counters) :
    ∃ t, stepLogs (stepAfter g node cur inS s2 logs2 ctr1) = logs2 ++ t := by
  unfold stepAfter
  split
  · split
    · exact ⟨_, rfl⟩
    · exact ⟨[], (List.append_nil logs2).symm⟩
    · exact edgePhase_logs_mono _ _ _ _ _ _
  · exact edgePhase_logs_mono _ _ _ _ _ _

theorem stepFn_logs_mono (g : WorkflowGraph) (node : WorkflowNode)
    (cur : String) (s : StateD) (logs : List ExecutionLog)
    (ctr1 : Counters) :
    ∃ t, stepLogs (stepFn g node cur s logs ctr1) = logs ++ t := by
  unfold stepFn
  split
  · exact ⟨_, rfl⟩
  · obtain ⟨t, ht⟩ := stepAfter_logs_mono g node cur s (updateD s _)
      (logs ++
        [{ node_id := cur, status := "success", input_state := s,
           output_state := updateD s _, error := none }]) ctr1
    exact ⟨_, by rw [ht, List.append_assoc]⟩

theorem stepNode_logs_mono (g : WorkflowGraph) (node : WorkflowNode)
    (cur : String) (s : StateD) (logs : List ExecutionLog)
    (ctr : Counters) :
    ∃ t, stepLogs (stepNode g node cur s logs ctr) = logs ++ t := by
  unfold stepNode
  split
  · exact ⟨_, rfl⟩
  · exact stepFn_logs_mono _ _ _ _ _ _

theorem step_logs_mono (g : WorkflowGraph) (cur : String) (s : StateD)
    (logs : List ExecutionLog) (ctr : Counters) :
    ∃ t, stepLogs (step g cur s logs ctr) = logs ++ t := by
  unfold step
  split
  · exact ⟨[], (List.append_nil logs).symm⟩
  · exact stepNode_logs_mono _ _ _ _ _ _

theorem runAux_logs_mono (g : WorkflowGraph) (fuel : Nat) :
    ∀ (cur : String) (s : StateD) (logs : List ExecutionLog)
      (ctr : Counters),
      ∃ t, runLogs (runAux g fuel cur s logs ctr) = logs ++ t := by
  induction fuel with
  | zero =>
    intro cur s logs ctr
    unfold runAux
    split
    · exact ⟨[], (List.append_nil logs).symm⟩
    · exact ⟨[], (List.append_nil logs).symm⟩
  | succ f ih =>
    intro cur s logs ctr
    unfold runAux
    split
    · exact ⟨[], (List.append_nil logs).symm⟩
    · cases hstep : step g cur s logs ctr with
      | next n s2 l2 c2 =>
        obtain ⟨t1, ht1⟩ := step_logs_mono g cur s logs ctr
        rw [hstep] at ht1
        obtain ⟨t2, ht2⟩ := ih n s2 l2 c2
        exact ⟨t1 ++ t2, by
          simp only [ht2, stepLogs] at *
          rw [ht1, List.append_assoc]⟩
      | done s2 l2 =>
        obtain ⟨t1, ht1⟩ := step_logs_mono g cur s logs ctr
        rw [hstep] at ht1
        exact ⟨t1, ht1⟩
      | fail m l2 =>
        obtain ⟨t1, ht1⟩ := step_logs_mono g cur s logs ctr
        rw [hstep] at ht1
        exact ⟨t1, ht1⟩

/-! ### Evaluation and inversion lemmas for the transition function -/

theorem edgePhase_first (g : WorkflowGraph) (cur : String) (inS s : StateD)
    (logs : List ExecutionLog) (ctr : Counters) (n : String)
    (rest : List String) (h : getNextNodes g cur s = Except.ok (n :: rest)) :
    edgePhase g cur inS s logs ctr = StepResult.next n s logs ctr := by
  unfold edgePhase
  rw [h]

theorem edgePhase_nil (g : WorkflowGraph) (cur : String) (inS s : StateD)
    (logs : List ExecutionLog) (ctr : Counters)
    (h : getNextNodes g cur s = Except.ok []) :
    edgePhase g cur inS s logs ctr = StepResult.done s logs := by
  unfold edgePhase
  rw [h]

theorem edgePhase_err (g : WorkflowGraph) (cur : String) (inS s : StateD)
    (logs : List ExecutionLog) (ctr : Counters) (m : String)
    (h : getNextNodes g cur s = Except.error m) :
    edgePhase g cur inS s logs ctr =
      StepResult.fail m (logs ++
        [{ node_id := cur, status := "error", input_state := inS,
           output_state := s, error := some m }]) := by
  unfold edgePhase
  rw [h]

theorem edgePhase_next_inv (g : WorkflowGraph) (cur : String)
    (inS s : StateD) (logs : List ExecutionLog) (ctr : Counters)
    (n : String) (s2 : StateD) (l2 : List ExecutionLog) (c2 : Counters)
    (h : edgePhase g cur inS s logs ctr = StepResult.next n s2 l2 c2) :
    s2 = s ∧ l2 = logs ∧ c2 = ctr := by
  unfold edgePhase at h
  split at h
  · cases h
  · cases h
  · cases h
    exact ⟨rfl, rfl, rfl⟩

theorem edgePhase_done_inv (g : WorkflowGraph) (cur : String)
    (inS s : StateD) (logs : List ExecutionLog) (ctr : Counters)
    (s2 : StateD) (l2 : List ExecutionLog)
    (h : edgePhase g cur inS s logs ctr = StepResult.done s2 l2) :
    s2 = s ∧ l2 = logs := by
  unfold edgePhase at h
  split at h
  · cases h
  · cases h
    exact ⟨rfl, rfl⟩
  · cases h

theorem step_of_node (g : WorkflowGraph) (cur : String) (s : StateD)
    (logs : List ExecutionLog) (ctr : Counters) (node : WorkflowNode)
    (hnode : lookupA g.nodes cur = some node) :
    step g cur s logs ctr = stepNode g node cur s logs ctr := by
  unfold step
  rw [hnode]

/-- For a non-loop node the limit check cannot fire and the counters are
untouched: one visit is `stepFn` with the incoming counters. -/
theorem stepNode_not_loop (g : WorkflowGraph) (node : WorkflowNode)
    (cur : String) (s : StateD) (logs : List ExecutionLog) (ctr : Counters)
    (htype : ¬ node.node_type = NodeType.loop) :
    stepNode g node cur s logs ctr = stepFn g node cur s logs ctr := by
  unfold stepNode bumpCtr
  rw [if_neg htype, if_neg (fun hc => htype hc.1)]

/-- A standard node that succeeds: merged state, one success entry, then
edge evaluation. -/
theorem step_standard (g : WorkflowGraph) (cur : String) (s : StateD)
    (logs : List ExecutionLog) (ctr : Counters) (node : WorkflowNode)
    (res : StateD)
    (hnode : lookupA g.nodes cur = some node)
    (htype : node.node_type = NodeType.standard)
    (hfn : node.fn s = Except.ok res) :
    step g cur s logs ctr =
      edgePhase g cur s (updateD s res)
        (logs ++
          [{ node_id := cur, status := "success", input_state := s,
             output_state := updateD s res, error := none }]) ctr := by
  rw [step_of_node g cur s logs ctr node hnode,
    stepNode_not_loop g node cur s logs ctr (by rw [htype]; intro hc; cases hc)]
  unfold stepFn
  rw [hfn]
  unfold stepAfter
  rw [htype]

theorem runAux_next (g : WorkflowGraph) (fuel : Nat) (cur : String)
    (s : StateD) (logs : List ExecutionLog) (ctr : Counters) (n : String)
    (s2 : StateD) (l2 : List ExecutionLog) (c2 : Counters)
    (hcur : ¬ cur = "")
    (h : step g cur s logs ctr = StepResult.next n s2 l2 c2) :
    runAux g (fuel + 1) cur s logs ctr = runAux g fuel n s2 l2 c2 := by
  simp only [runAux]
  rw [if_neg hcur, h]

theorem runAux_done (g : WorkflowGraph) (fuel : Nat) (cur : String)
    (s : StateD) (logs : List ExecutionLog) (ctr : Counters)
    (s2 : StateD) (l2 : List ExecutionLog)
    (hcur : ¬ cur = "")
    (h : step g cur s logs ctr = StepResult.done s2 l2) :
    runAux g (fuel + 1) cur s logs ctr = RunOutcome.ok s2 l2 := by
  simp only [runAux]
  rw [if_neg hcur, h]

theorem runAux_fail (g : WorkflowGraph) (fuel : Nat) (cur : String)
    (s : StateD) (logs : List ExecutionLog) (ctr : Counters)
    (m : String) (l2 : List ExecutionLog)
    (hcur : ¬ cur = "")
    (h : step g cur s logs ctr = StepResult.fail m l2) :
    runAux g (fuel + 1) cur s logs ctr = RunOutcome.err m l2 := by
  simp only [runAux]
  rw [if_neg hcur, h]

/-! ### Claim theorems -/

/-- C10: when a loop node with no loop predicate exceeds its max-iterations
bound, the failing attempt appends an error log entry for that node before
the error propagates, with `input_state` and `output_state` both equal to
the run state at the start of the attempt; the node's processing function
is not invoked (the conclusion holds for every `node.fn`, which it never
mentions). -/
theorem C10_loop_limit_error_logged
    (g : WorkflowGraph) (fuel : Nat) (cur : String) (s : StateD)
    (logs : List ExecutionLog) (ctr : Counters) (node : WorkflowNode)
    (hcur : ¬ cur = "")
    (hnode : lookupA g.nodes cur = some node)
    (htype : node.node_type = NodeType.loop)
    (hnocond : node.loop_condition.isNone = true)
    (hlim : ctrGet ctr cur + 1 > node.max_iterations) :
    runAux g (fuel + 1) cur s logs ctr =
      RunOutcome.err (limitMsg cur node.max_iterations)
        (logs ++
          [{ node_id := cur, status := "error", input_state := s,
             output_state := s,
             error := some (limitMsg cur node.max_iterations) }]) := by
  apply runAux_fail g fuel cur s logs ctr _ _ hcur
  rw [step_of_node g cur s logs ctr node hnode]
  unfold stepNode bumpCtr
  rw [if_pos ⟨htype,
    by rw [if_pos htype, ctrGet_setA, if_pos rfl]; exact hlim, hnocond⟩]

/-- A loop node with no exit predicate and bound 2, used as the concrete
instance for the loop-limit claims. -/
def loopNodeNC : WorkflowNode :=
  { id := "L", fn := fun _ => Except.ok [("x", Value.num 1)],
    node_type := NodeType.loop, loop_condition := none,
    max_iterations := 2 }

/-- Self-looping graph around `loopNodeNC`. -/
def loopGraphNC : WorkflowGraph :=
  { nodes := [("L", loopNodeNC)],
    edges := [{ from_node := "L", to_node := "L" }],
    start_node := some "L", end_nodes := [] }

/-- Witness for C10 at a concrete input: with the counter already at the
bound 2, the next visit to `L` fails with the limit message and logs one
error entry whose two snapshots are the untouched state. -/
theorem C10_loop_limit_error_logged_witness :
    runAux loopGraphNC 1 "L" [("y", Value.num 7)] [] [("L", 2)] =
      RunOutcome.err (limitMsg "L" 2)
        [{ node_id := "L", status := "error",
           input_state := [("y", Value.num 7)],
           output_state := [("y", Value.num 7)],
           error := some (limitMsg "L" 2) }] :=
  C10_loop_limit_error_logged loopGraphNC 0 "L" [("y", Value.num 7)] []
    [("L", 2)] loopNodeNC (by decide) rfl rfl rfl (by decide)

/-- C3: after a loop node's function runs and its result is merged, a true
loop predicate keeps execution at the same node with the incremented (not
reset) counter and consults no edge (the conclusion holds for every edge
list `es`); a false predicate resets the node's counter to zero and hands
over to edge evaluation. -/
theorem C3_loop_predicate
    (g : WorkflowGraph) (cur : String) (s : StateD)
    (logs : List ExecutionLog) (ctr : Counters) (node : WorkflowNode)
    (res : StateD) (cond : StateD → Except String Bool)
    (hnode : lookupA g.nodes cur = some node)
    (htype : node.node_type = NodeType.loop)
    (hcond : node.loop_condition = some cond)
    (hfn : node.fn s = Except.ok res) :
    (cond (updateD s res) = Except.ok true →
      ∀ es : List WorkflowEdge,
        step { g with edges := es } cur s logs ctr =
          StepResult.next cur (updateD s res)
            (logs ++
              [{ node_id := cur, status := "success", input_state := s,
                 output_state := updateD s res, error := none }])
            (setA ctr cur (ctrGet ctr cur + 1)))
    ∧ (cond (updateD s res) = Except.ok false →
      step g cur s logs ctr =
        edgePhase g cur s (updateD s res)
          (logs ++
            [{ node_id := cur, status := "success", input_state := s,
               output_state := updateD s res, error := none }])
          (setA (setA ctr cur (ctrGet ctr cur + 1)) cur 0)) := by
  have hnotlim : ¬ (node.node_type = NodeType.loop ∧
      ctrGet (bumpCtr node cur ctr) cur > node.max_iterations ∧
      node.loop_condition.isNone = true) := by
    intro h
    rw [hcond] at h
    simp at h
  have key : ∀ (g' : WorkflowGraph), lookupA g'.nodes cur = some node →
      step g' cur s logs ctr =
        match cond (updateD s res) with
        | Except.error m =>
          StepResult.fail m
            ((logs ++
              [{ node_id := cur, status := "success", input_state := s,
                 output_state := updateD s res, error := none }]) ++
              [{ node_id := cur, status := "error", input_state := s,
                 output_state := updateD s res, error := some m }])
        | Except.ok true =>
          StepResult.next cur (updateD s res)
            (logs ++
              [{ node_id := cur, status := "success", input_state := s,
                 output_state := updateD s res, error := none }])
            (setA ctr cur (ctrGet ctr cur + 1))
        | Except.ok false =>
          edgePhase g' cur s (updateD s res)
            (logs ++
              [{ node_id := cur, status := "success", input_state := s,
                 output_state := updateD s res, error := none }])
            (setA (setA ctr cur (ctrGet ctr cur + 1)) cur 0) := by
    intro g' hn
    rw [step_of_node g' cur s logs ctr node hn]
    unfold stepNode
    rw [if_neg hnotlim]
    unfold stepFn
    rw [hfn]
    unfold stepAfter
    rw [htype, hcond]
    unfold bumpCtr
    rw [if_pos htype]
  constructor
  · intro hT es
    rw [key { g with edges := es } hnode, hT]
  · intro hF
    rw [key g hnode, hF]

/-- A loop node whose predicate always answers true, the concrete instance
for the loop-predicate claim. -/
def loopNodeP : WorkflowNode :=
  { id := "P", fn := fun _ => Except.ok [("i", Value.num 1)],
    node_type := NodeType.loop,
    loop_condition := some (fun _ => Except.ok true),
    max_iterations := 10 }

/-- One-node graph around `loopNodeP`. -/
def loopGraphP : WorkflowGraph :=
  { nodes := [("P", loopNodeP)], edges := [], start_node := some "P",
    end_nodes := [] }

/-- Witness for C3 at a concrete input: the true predicate keeps execution
at `P` with counter 1, whatever the edge list. -/
theorem C3_loop_predicate_witness :
    step { loopGraphP with edges := [] } "P" [] [] [] =
      StepResult.next "P" [("i", Value.num 1)]
        [{ node_id := "P", status := "success", input_state := [],
           output_state := [("i", Value.num 1)], error := none }]
        [("P", 1)] :=
  (C3_loop_predicate loopGraphP "P" [] [] [] loopNodeP
    [("i", Value.num 1)] (fun _ => Except.ok true) rfl rfl rfl rfl).1 rfl []

/-- C7: with zero eligible outgoing edges the run ends at the current node
and returns `(finalState, log)` successfully; the outcome is the same for
every terminal set (`end_nodes` only drives a non-fatal warning), so
ending outside the terminal set is never an error. -/
theorem C7_zero_eligible_ends_successfully :
    (∀ (g : WorkflowGraph) (cur : String) (inS s : StateD)
      (logs : List ExecutionLog) (ctr : Counters) (ends : List String),
      getNextNodes g cur s = Except.ok [] →
      edgePhase { g with end_nodes := ends } cur inS s logs ctr =
        StepResult.done s logs)
    ∧ (∀ (g : WorkflowGraph) (fuel : Nat) (cur : String) (s : StateD)
      (logs : List ExecutionLog) (ctr : Counters) (s2 : StateD)
      (l2 : List ExecutionLog),
      ¬ cur = "" → step g cur s logs ctr = StepResult.done s2 l2 →
      runAux g (fuel + 1) cur s logs ctr = RunOutcome.ok s2 l2) := by
  constructor
  · intro g cur inS s logs ctr ends h
    exact edgePhase_nil { g with end_nodes := ends } cur inS s logs ctr h
  · intro g fuel cur s logs ctr s2 l2 hcur h
    exact runAux_done g fuel cur s logs ctr s2 l2 hcur h

/-- A single standard node with no outgoing edges, the concrete instance
for the zero-eligible claim. -/
def doneGraph : WorkflowGraph :=
  { nodes := [("a", { id := "a", fn := fun _ => Except.ok [] })],
    edges := [], start_node := some "a", end_nodes := [] }

/-- Witness for C7 at a concrete input: the edgeless node ends the run
successfully even when the terminal set names a different node. -/
theorem C7_zero_eligible_ends_successfully_witness :
    edgePhase { doneGraph with end_nodes := ["other"] } "a" [] [] [] [] =
      StepResult.done [] [] ∧
    runAux doneGraph 3 "a" [] [] [] =
      RunOutcome.ok []
        [{ node_id := "a", status := "success", input_state := [],
           output_state := [], error := none }] :=
  ⟨C7_zero_eligible_ends_successfully.1 doneGraph "a" [] [] [] [] ["other"]
      rfl,
   C7_zero_eligible_ends_successfully.2 doneGraph 2 "a" [] [] [] []
      [{ node_id := "a", status := "success", input_state := [],
         output_state := [], error := none }] (by decide) rfl⟩

/-- A successful node invocation reduces one visit to the post-execution
phase on the merged state, with the success entry logged. -/
theorem step_after_ok (g : WorkflowGraph) (cur : String) (s : StateD)
    (logs : List ExecutionLog) (ctr : Counters) (node : WorkflowNode)
    (res : StateD)
    (hnode : lookupA g.nodes cur = some node)
    (hnolim : ¬ (node.node_type = NodeType.loop ∧
      ctrGet (bumpCtr node cur ctr) cur > node.max_iterations ∧
      node.loop_condition.isNone = true))
    (hfn : node.fn s = Except.ok res) :
    step g cur s logs ctr =
      stepAfter g node cur s (updateD s res)
        (logs ++
          [{ node_id := cur, status := "success", input_state := s,
             output_state := updateD s res, error := none }])
        (bumpCtr node cur ctr) := by
  rw [step_of_node g cur s logs ctr node hnode]
  unfold stepNode
  rw [if_neg hnolim]
  unfold stepFn
  rw [hfn]

/-- The post-execution phase of a loop node with a predicate is the
three-way case split on the predicate's outcome. -/
theorem stepAfter_loop_cond (g : WorkflowGraph) (node : WorkflowNode)
    (cur : String) (inS s2 : StateD) (logs2 : List ExecutionLog)
    (ctr1 : Counters) (cond : StateD → Except String Bool)
    (htype : node.node_type = NodeType.loop)
    (hcond : node.loop_condition = some cond) :
    stepAfter g node cur inS s2 logs2 ctr1 =
      match cond s2 with
      | Except.error m =>
        StepResult.fail m (logs2 ++
          [{ node_id := cur, status := "error", input_state := inS,
             output_state := s2, error := some m }])
      | Except.ok true => StepResult.next cur s2 logs2 ctr1
      | Except.ok false =>
        edgePhase g cur inS s2 logs2 (setA ctr1 cur 0) := by
  unfold stepAfter
  rw [htype, hcond]

/-- Without a loop predicate (or for a non-loop node) the post-execution
phase is edge evaluation. -/
theorem stepAfter_no_cond (g : WorkflowGraph) (node : WorkflowNode)
    (cur : String) (inS s2 : StateD) (logs2 : List ExecutionLog)
    (ctr1 : Counters)
    (hnl : node.node_type = NodeType.loop → node.loop_condition = none) :
    stepAfter g node cur inS s2 logs2 ctr1 =
      edgePhase g cur inS s2 logs2 ctr1 := by
  unfold stepAfter
  cases htyp : node.node_type with
  | loop => rw [hnl htyp]
  | standard => rfl
  | branch => rfl

/-- A node whose processing function always raises `boom`, the concrete
instance for the error-propagation claim. -/
def boomGraph : WorkflowGraph :=
  { nodes := [("b", { id := "b", fn := fun _ => Except.error "boom" })],
    edges := [], start_node := some "b", end_nodes := [] }

/-- A succeeding node `a` followed by the raising node `b`: a failing run
whose internal log differs from `boomGraph`'s.  -/
def boomChainGraph : WorkflowGraph :=
  { nodes :=
      [("a", { id := "a", fn := fun _ => Except.ok [("v", Value.num 1)] }),
       ("b", { id := "b", fn := fun _ => Except.error "boom" })],
    edges := [{ from_node := "a", to_node := "b" }],
    start_node := some "a", end_nodes := [] }

/-- Counterexample to C1 as stated: the claim's last conjunct says the run
propagates an error *carrying the full log accumulated so far*, but line
237 of the engine bare-`raise`s the original exception and the local
`logs` list is discarded — `run` returns the log only on success, and the
caller (`main.py`) sees only `str(e)`. Concretely: these two failing runs
accumulate *different* internal logs (one entry vs. a success entry plus
the error entry), yet their caller-visible outcomes are *equal* — both
are just the exception message. A propagated error that carried the full
log would have to differ between them. -/
theorem C1_counterexample :
    run boomGraph [] 5 =
      RunOutcome.err "boom"
        [{ node_id := "b", status := "error", input_state := [],
           output_state := [], error := some "boom" }] ∧
    run boomChainGraph [] 5 =
      RunOutcome.err "boom"
        [{ node_id := "a", status := "success", input_state := [],
           output_state := [("v", Value.num 1)], error := none },
         { node_id := "b", status := "error",
           input_state := [("v", Value.num 1)],
           output_state := [("v", Value.num 1)], error := some "boom" }] ∧
    ¬ runLogs (run boomGraph [] 5) = runLogs (run boomChainGraph [] 5) ∧
    callerView (run boomGraph [] 5) = Except.error "boom" ∧
    callerView (run boomChainGraph [] 5) = Except.error "boom" :=
  ⟨rfl, rfl, by decide, rfl, rfl⟩

/-- C1 amended: if the processing function, the loop predicate or an edge
guard raises during a visit to a node, the run appends an error entry for
that node carrying the raised message to its *internal* log (plus, when
the function had already succeeded, the success entry logged before the
predicate/guard ran), no entry for any later node exists, and the run
stops by re-raising the exception, whatever fuel remains: the caller
receives only the message (`callerView`), the accumulated log being
discarded by the bare `raise` — it is returned on success alone. In each
conjunct the first equation describes the internal (ghost) log at the
moment of the raise, the second the caller-visible payload. -/
theorem C1_error_propagation
    (g : WorkflowGraph) (fuel : Nat) (cur : String) (s : StateD)
    (logs : List ExecutionLog) (ctr : Counters) (node : WorkflowNode)
    (m : String)
    (hcur : ¬ cur = "")
    (hnode : lookupA g.nodes cur = some node)
    (hnolim : ¬ (node.node_type = NodeType.loop ∧
      ctrGet (bumpCtr node cur ctr) cur > node.max_iterations ∧
      node.loop_condition.isNone = true)) :
    (node.fn s = Except.error m →
      runAux g (fuel + 1) cur s logs ctr =
        RunOutcome.err m
          (logs ++
            [{ node_id := cur, status := "error", input_state := s,
               output_state := s, error := some m }]) ∧
      callerView (runAux g (fuel + 1) cur s logs ctr) = Except.error m)
    ∧ (∀ res cond, node.fn s = Except.ok res →
      node.node_type = NodeType.loop → node.loop_condition = some cond →
      cond (updateD s res) = Except.error m →
      runAux g (fuel + 1) cur s logs ctr =
        RunOutcome.err m
          (logs ++
            [{ node_id := cur, status := "success", input_state := s,
               output_state := updateD s res, error := none },
             { node_id := cur, status := "error", input_state := s,
               output_state := updateD s res, error := some m }]) ∧
      callerView (runAux g (fuel + 1) cur s logs ctr) = Except.error m)
    ∧ (∀ res, node.fn s = Except.ok res →
      (node.node_type = NodeType.loop → node.loop_condition = none) →
      getNextNodes g cur (updateD s res) = Except.error m →
      runAux g (fuel + 1) cur s logs ctr =
        RunOutcome.err m
          (logs ++
            [{ node_id := cur, status := "success", input_state := s,
               output_state := updateD s res, error := none },
             { node_id := cur, status := "error", input_state := s,
               output_state := updateD s res, error := some m }]) ∧
      callerView (runAux g (fuel + 1) cur s logs ctr) = Except.error m)
    ∧ (∀ res cond, node.fn s = Except.ok res →
      node.node_type = NodeType.loop → node.loop_condition = some cond →
      cond (updateD s res) = Except.ok false →
      getNextNodes g cur (updateD s res) = Except.error m →
      runAux g (fuel + 1) cur s logs ctr =
        RunOutcome.err m
          (logs ++
            [{ node_id := cur, status := "success", input_state := s,
               output_state := updateD s res, error := none },
             { node_id := cur, status := "error", input_state := s,
               output_state := updateD s res, error := some m }]) ∧
      callerView (runAux g (fuel + 1) cur s logs ctr) = Except.error m) := by
  refine ⟨?_, ?_, ?_, ?_⟩
  · intro hfn
    have h : runAux g (fuel + 1) cur s logs ctr =
        RunOutcome.err m
          (logs ++
            [{ node_id := cur, status := "error", input_state := s,
               output_state := s, error := some m }]) := by
      apply runAux_fail g fuel cur s logs ctr _ _ hcur
      rw [step_of_node g cur s logs ctr node hnode]
      unfold stepNode
      rw [if_neg hnolim]
      unfold stepFn
      rw [hfn]
    exact ⟨h, by rw [h]; rfl⟩
  · intro res cond hfn htype hcond hraise
    have h : runAux g (fuel + 1) cur s logs ctr =
        RunOutcome.err m
          (logs ++
            [{ node_id := cur, status := "success", input_state := s,
               output_state := updateD s res, error := none },
             { node_id := cur, status := "error", input_state := s,
               output_state := updateD s res, error := some m }]) := by
      apply runAux_fail g fuel cur s logs ctr _ _ hcur
      rw [step_after_ok g cur s logs ctr node res hnode hnolim hfn,
        stepAfter_loop_cond g node cur s (updateD s res) _ _ cond htype
          hcond, hraise]
      simp
    exact ⟨h, by rw [h]; rfl⟩
  · intro res hfn hnl hguard
    have h : runAux g (fuel + 1) cur s logs ctr =
        RunOutcome.err m
          (logs ++
            [{ node_id := cur, status := "success", input_state := s,
               output_state := updateD s res, error := none },
             { node_id := cur, status := "error", input_state := s,
               output_state := updateD s res, error := some m }]) := by
      apply runAux_fail g fuel cur s logs ctr _ _ hcur
      rw [step_after_ok g cur s logs ctr node res hnode hnolim hfn,
        stepAfter_no_cond g node cur s (updateD s res) _ _ hnl,
        edgePhase_err g cur s (updateD s res) _ _ m hguard,
        List.append_assoc]
      rfl
    exact ⟨h, by rw [h]; rfl⟩
  · intro res cond hfn htype hcond hF hguard
    have h : runAux g (fuel + 1) cur s logs ctr =
        RunOutcome.err m
          (logs ++
            [{ node_id := cur, status := "success", input_state := s,
               output_state := updateD s res, error := none },
             { node_id := cur, status := "error", input_state := s,
               output_state := updateD s res, error := some m }]) := by
      apply runAux_fail g fuel cur s logs ctr _ _ hcur
      rw [step_after_ok g cur s logs ctr node res hnode hnolim hfn,
        stepAfter_loop_cond g node cur s (updateD s res) _ _ cond htype
          hcond, hF]
      simp
      rw [edgePhase_err g cur s (updateD s res) _ _ m hguard,
        List.append_assoc]
      rfl
    exact ⟨h, by rw [h]; rfl⟩

/-- Witness for the amended C1 at a concrete input: the raising function
yields an error entry for `b` with the message verbatim in the internal
log, nothing after it, and the caller-visible payload is the message
alone. -/
theorem C1_error_propagation_witness :
    (runAux boomGraph 4 "b" [("k", Value.num 0)] [] [] =
      RunOutcome.err "boom"
        [{ node_id := "b", status := "error",
           input_state := [("k", Value.num 0)],
           output_state := [("k", Value.num 0)], error := some "boom" }]) ∧
    callerView (runAux boomGraph 4 "b" [("k", Value.num 0)] [] []) =
      Except.error "boom" :=
  (C1_error_propagation boomGraph 3 "b" [("k", Value.num 0)] [] []
    { id := "b", fn := fun _ => Except.error "boom" } "boom" (by decide) rfl
    (by intro h; simp at h)).1 rfl

/-- The post-execution phase at a merged state `s2X` with logged entries
`logs2` can only continue or terminate with exactly that state and log. -/
theorem stepAfter_not_fail_inv (g : WorkflowGraph) (node : WorkflowNode)
    (cur : String) (inS s2X : StateD) (logs2 : List ExecutionLog)
    (ctr1 : Counters) :
    (∀ n s2 l2 c2,
      stepAfter g node cur inS s2X logs2 ctr1 = StepResult.next n s2 l2 c2 →
      s2 = s2X ∧ l2 = logs2)
    ∧ (∀ s2 l2,
      stepAfter g node cur inS s2X logs2 ctr1 = StepResult.done s2 l2 →
      s2 = s2X ∧ l2 = logs2) := by
  unfold stepAfter
  split
  · split
    · exact ⟨fun n s2 l2 c2 h => StepResult.noConfusion h,
        fun s2 l2 h => StepResult.noConfusion h⟩
    · constructor
      · intro n s2 l2 c2 h
        cases h
        exact ⟨rfl, rfl⟩
      · intro s2 l2 h
        cases h
    · constructor
      · intro n s2 l2 c2 h
        obtain ⟨h1, h2, h3⟩ := edgePhase_next_inv _ _ _ _ _ _ _ _ _ _ h
        exact ⟨h1, h2⟩
      · intro s2 l2 h
        exact edgePhase_done_inv _ _ _ _ _ _ _ _ h
  · constructor
    · intro n s2 l2 c2 h
      obtain ⟨h1, h2, h3⟩ := edgePhase_next_inv _ _ _ _ _ _ _ _ _ _ h
      exact ⟨h1, h2⟩
    · intro s2 l2 h
      exact edgePhase_done_inv _ _ _ _ _ _ _ _ h

/-- C5: a node execution that does not fail appends exactly one log entry
with status success, input the pre-execution state, output that state
merged with the function's returned map by key overwrite (the merged state
also being the state carried forward); and the run log is append-only:
whatever the outcome, the accumulated log extends the incoming one (so
entries keep execution order and are never modified). -/
theorem C5_success_entry_and_append_only :
    (∀ (g : WorkflowGraph) (cur : String) (s : StateD)
      (logs : List ExecutionLog) (ctr : Counters) (node : WorkflowNode)
      (res : StateD) (n : String) (s2 : StateD) (l2 : List ExecutionLog)
      (c2 : Counters),
      lookupA g.nodes cur = some node → node.fn s = Except.ok res →
      step g cur s logs ctr = StepResult.next n s2 l2 c2 →
      s2 = updateD s res ∧
        l2 = logs ++
          [{ node_id := cur, status := "success", input_state := s,
             output_state := updateD s res, error := none }])
    ∧ (∀ (g : WorkflowGraph) (cur : String) (s : StateD)
      (logs : List ExecutionLog) (ctr : Counters) (node : WorkflowNode)
      (res : StateD) (s2 : StateD) (l2 : List ExecutionLog),
      lookupA g.nodes cur = some node → node.fn s = Except.ok res →
      step g cur s logs ctr = StepResult.done s2 l2 →
      s2 = updateD s res ∧
        l2 = logs ++
          [{ node_id := cur, status := "success", input_state := s,
             output_state := updateD s res, error := none }])
    ∧ (∀ (g : WorkflowGraph) (fuel : Nat) (cur : String) (s : StateD)
      (logs : List ExecutionLog) (ctr : Counters),
      ∃ t, runLogs (runAux g fuel cur s logs ctr) = logs ++ t) := by
  refine ⟨?_, ?_, ?_⟩
  · intro g cur s logs ctr node res n s2 l2 c2 hnode hfn hstep
    by_cases hlim : node.node_type = NodeType.loop ∧
        ctrGet (bumpCtr node cur ctr) cur > node.max_iterations ∧
        node.loop_condition.isNone = true
    · rw [step_of_node g cur s logs ctr node hnode] at hstep
      unfold stepNode at hstep
      rw [if_pos hlim] at hstep
      cases hstep
    · rw [step_after_ok g cur s logs ctr node res hnode hlim hfn] at hstep
      exact (stepAfter_not_fail_inv g node cur s (updateD s res) _ _).1
        n s2 l2 c2 hstep
  · intro g cur s logs ctr node res s2 l2 hnode hfn hstep
    by_cases hlim : node.node_type = NodeType.loop ∧
        ctrGet (bumpCtr node cur ctr) cur > node.max_iterations ∧
        node.loop_condition.isNone = true
    · rw [step_of_node g cur s logs ctr node hnode] at hstep
      unfold stepNode at hstep
      rw [if_pos hlim] at hstep
      cases hstep
    · rw [step_after_ok g cur s logs ctr node res hnode hlim hfn] at hstep
      exact (stepAfter_not_fail_inv g node cur s (updateD s res) _ _).2
        s2 l2 hstep
  · intro g fuel cur s logs ctr
    exact runAux_logs_mono g fuel cur s logs ctr

/-- Two-node chain used as the concrete instance for the success-logging
claim. -/
def chainGraph : WorkflowGraph :=
  { nodes :=
      [("a", { id := "a", fn := fun _ => Except.ok [("v", Value.num 5)] }),
       ("b", { id := "b", fn := fun _ => Except.ok [] })],
    edges := [{ from_node := "a", to_node := "b" }],
    start_node := some "a", end_nodes := ["b"] }

/-- Witness for C5 at a concrete input: the one step from `a` carries the
merged state and exactly the success entry. -/
theorem C5_success_entry_and_append_only_witness :
    [("v", Value.num 5)] = updateD [] [("v", Value.num 5)] ∧
    ([{ node_id := "a", status := "success", input_state := [],
        output_state := updateD ([] : StateD) [("v", Value.num 5)],
        error := none }] : List ExecutionLog) =
      [] ++
        [{ node_id := "a", status := "success", input_state := [],
           output_state := updateD ([] : StateD) [("v", Value.num 5)],
           error := none }] :=
  C5_success_entry_and_append_only.1 chainGraph "a" [] [] []
    { id := "a", fn := fun _ => Except.ok [("v", Value.num 5)] }
    [("v", Value.num 5)] "b" [("v", Value.num 5)]
    [{ node_id := "a", status := "success", input_state := [],
       output_state := updateD ([] : StateD) [("v", Value.num 5)],
       error := none }] [] rfl rfl rfl

/-- A pure edge description: source, destination, optional boolean guard
(a guard that cannot raise). -/
abbrev PureEdge := String × String × Option (StateD → Bool)

/-- Lift a pure edge description to a `WorkflowEdge`. -/
def mkEdge (e : PureEdge) : WorkflowEdge :=
  { from_node := e.1, to_node := e.2.1,
    condition := e.2.2.map (fun p => fun st => Except.ok (p st)) }

/-- Modelled from the spec's words (claim C4), for comparison against
`_get_next_nodes`: examine every edge in the order it was added, keep each
outgoing edge of the current node that has no guard or whose guard
evaluates true on the current state, and collect the destinations in edge
order. -/
def eligibleDestsSpec : List PureEdge → String → StateD → List String
  | [], _, _ => []
  | e :: t, cur, s =>
    if e.1 = cur ∧ (match e.2.2 with | none => true | some p => p s) = true
    then e.2.1 :: eligibleDestsSpec t cur s
    else eligibleDestsSpec t cur s

/-- One unfolding of the loop of `_get_next_nodes`. -/
theorem evalEdges_cons (e : WorkflowEdge) (es : List WorkflowEdge)
    (s : StateD) :
    evalEdges (e :: es) s =
      match e.condition with
      | some c =>
        match c s with
        | Except.error m => Except.error m
        | Except.ok b =>
          match evalEdges es s with
          | Except.error m => Except.error m
          | Except.ok rest =>
            Except.ok (if b then e.to_node :: rest else rest)
      | none =>
        match evalEdges es s with
        | Except.error m => Except.error m
        | Except.ok rest => Except.ok (e.to_node :: rest) := rfl

/-- C4: for a graph whose guards cannot raise, `_get_next_nodes` returns
exactly the spec's eligible-destination list, in edge insertion order; and
when that list is non-empty the run deterministically continues to its
first element (the engine is a function of graph and state, so repeated
runs with identical state take the same edge). -/
theorem C4_edge_order_first_eligible :
    (∀ (pes : List PureEdge) (g : WorkflowGraph) (cur : String) (s : StateD),
      g.edges = pes.map mkEdge →
      getNextNodes g cur s = Except.ok (eligibleDestsSpec pes cur s))
    ∧ (∀ (g : WorkflowGraph) (cur : String) (inS s : StateD)
      (logs : List ExecutionLog) (ctr : Counters) (d : String)
      (rest : List String),
      getNextNodes g cur s = Except.ok (d :: rest) →
      edgePhase g cur inS s logs ctr = StepResult.next d s logs ctr) := by
  constructor
  · intro pes g cur s hE
    unfold getNextNodes
    rw [hE]
    clear hE
    induction pes with
    | nil => rfl
    | cons e t ih =>
      rw [List.map_cons, List.filter_cons]
      by_cases hc : e.1 = cur
      · rw [if_pos (by simp [mkEdge, hc]), evalEdges_cons]
        cases hg : e.2.2 with
        | none =>
          rw [show (mkEdge e).condition = none by simp [mkEdge, hg]]
          rw [ih]
          simp [eligibleDestsSpec, hc, hg, mkEdge]
        | some p =>
          rw [show (mkEdge e).condition =
            some (fun st => Except.ok (p st)) by simp [mkEdge, hg]]
          dsimp only
          rw [ih]
          cases hps : p s <;> simp [eligibleDestsSpec, hc, hg, hps, mkEdge]
      · rw [if_neg (by simp [mkEdge, hc]), ih]
        simp [eligibleDestsSpec, hc]
  · intro g cur inS s logs ctr d rest h
    exact edgePhase_first g cur inS s logs ctr d rest h

/-- Pure edge descriptions with two simultaneously eligible edges out of
`a`, the concrete instance for the branch-determinism claim. -/
def pureEdges4 : List PureEdge :=
  [("a", "b", some (fun _ => true)), ("a", "c", none), ("z", "q", none)]

/-- Graph over `pureEdges4`. -/
def branchGraph : WorkflowGraph :=
  { nodes :=
      [("a", { id := "a", fn := fun _ => Except.ok [] }),
       ("b", { id := "b", fn := fun _ => Except.ok [] }),
       ("c", { id := "c", fn := fun _ => Except.ok [] }),
       ("z", { id := "z", fn := fun _ => Except.ok [] }),
       ("q", { id := "q", fn := fun _ => Except.ok [] })],
    edges := pureEdges4.map mkEdge,
    start_node := some "a", end_nodes := [] }

/-- Witness for C4 at a concrete input: both edges out of `a` are
eligible, in insertion order, and the run proceeds to the first (`b`). -/
theorem C4_edge_order_first_eligible_witness :
    getNextNodes branchGraph "a" [] = Except.ok ["b", "c"] ∧
    edgePhase branchGraph "a" [] [] [] [] = StepResult.next "b" [] [] [] := by
  have h1 := C4_edge_order_first_eligible.1 pureEdges4 branchGraph "a" [] rfl
  exact ⟨h1,
    C4_edge_order_first_eligible.2 branchGraph "a" [] [] [] [] "b" ["c"] h1⟩

/-- Loop node with no exit predicate and bound `K` running `f` (embedded
parameter of the loop-safety-net claim). -/
def loopNodeK (K : Nat) (f : StateD → StateD) : WorkflowNode :=
  { id := "L", fn := fun s => Except.ok (f s),
    node_type := NodeType.loop, loop_condition := none,
    max_iterations := K }

/-- Self-looping graph around `loopNodeK K f`: control keeps returning to
`L` through the unconditional self-edge. -/
def loopGraphK (K : Nat) (f : StateD → StateD) : WorkflowGraph :=
  { nodes := [("L", loopNodeK K f)],
    edges := [{ from_node := "L", to_node := "L" }],
    start_node := some "L", end_nodes := [] }

/-- The log written by `r` further successful attempts at `L` followed by
the failing attempt. -/
def loopTrace (f : StateD → StateD) (msg : String) :
    Nat → StateD → List ExecutionLog
  | 0, s =>
    [{ node_id := "L", status := "error", input_state := s,
       output_state := s, error := some msg }]
  | r + 1, s =>
    { node_id := "L", status := "success", input_state := s,
      output_state := updateD s (f s), error := none } ::
      loopTrace f msg r (updateD s (f s))

/-- The state after `r` successful attempts at `L`. -/
def iterUpd (f : StateD → StateD) : Nat → StateD → StateD
  | 0, s => s
  | r + 1, s => iterUpd f r (updateD s (f s))

theorem loopTrace_statuses (f : StateD → StateD) (msg : String) :
    ∀ (r : Nat) (s : StateD),
      (loopTrace f msg r s).map (fun e => e.status) =
        List.replicate r "success" ++ ["error"] := by
  intro r
  induction r with
  | zero => intro s; rfl
  | succ r ih =>
    intro s
    simp only [loopTrace, List.map_cons, ih, List.replicate_succ,
      List.cons_append]

theorem loopTrace_getLast (f : StateD → StateD) (msg : String) :
    ∀ (r : Nat) (s : StateD),
      (loopTrace f msg r s).getLast? =
        some { node_id := "L", status := "error",
               input_state := iterUpd f r s, output_state := iterUpd f r s,
               error := some msg } := by
  intro r
  induction r with
  | zero => intro s; rfl
  | succ r ih =>
    intro s
    cases r with
    | zero => rfl
    | succ r2 =>
      show ((⟨"L", "success", s, updateD s (f s), none⟩ : ExecutionLog) ::
          loopTrace f msg (r2 + 1) (updateD s (f s))).getLast? = _
      have hlt : loopTrace f msg (r2 + 1) (updateD s (f s)) =
          (⟨"L", "success", updateD s (f s),
            updateD (updateD s (f s)) (f (updateD s (f s))),
            none⟩ : ExecutionLog) ::
            loopTrace f msg r2
              (updateD (updateD s (f s)) (f (updateD s (f s)))) := rfl
      rw [hlt, List.getLast?_cons_cons, ← hlt]
      exact ih (updateD s (f s))

theorem loopGraphK_aux (K : Nat) (f : StateD → StateD) :
    ∀ (r : Nat), ∀ (j fuel : Nat) (s : StateD) (logs : List ExecutionLog)
      (ctr : Counters), ctrGet ctr "L" = j → j + r = K →
      runAux (loopGraphK K f) (fuel + r + 1) "L" s logs ctr =
        RunOutcome.err (limitMsg "L" K)
          (logs ++ loopTrace f (limitMsg "L" K) r s) := by
  intro r
  induction r with
  | zero =>
    intro j fuel s logs ctr hj hjr
    apply runAux_fail _ _ _ _ _ _ _ _ (by decide)
    rw [step_of_node (loopGraphK K f) "L" s logs ctr (loopNodeK K f) rfl]
    unfold stepNode
    rw [if_pos ⟨rfl, by
      unfold bumpCtr
      rw [if_pos (show (loopNodeK K f).node_type = NodeType.loop from rfl),
        ctrGet_setA, if_pos (rfl : "L" = "L"), hj]
      show K < j + 1
      omega, rfl⟩]
    rfl
  | succ r ih =>
    intro j fuel s logs ctr hj hjr
    have hc1 : ctrGet (bumpCtr (loopNodeK K f) "L" ctr) "L" = j + 1 := by
      unfold bumpCtr
      rw [if_pos (show (loopNodeK K f).node_type = NodeType.loop from rfl),
        ctrGet_setA, if_pos (rfl : "L" = "L"), hj]
    have hnolim : ¬ ((loopNodeK K f).node_type = NodeType.loop ∧
        ctrGet (bumpCtr (loopNodeK K f) "L" ctr) "L" >
          (loopNodeK K f).max_iterations ∧
        (loopNodeK K f).loop_condition.isNone = true) := by
      rintro ⟨-, h2, -⟩
      rw [hc1] at h2
      have hKlt : K < j + 1 := h2
      omega
    have hstep : step (loopGraphK K f) "L" s logs ctr =
        StepResult.next "L" (updateD s (f s))
          (logs ++
            [{ node_id := "L", status := "success", input_state := s,
               output_state := updateD s (f s), error := none }])
          (bumpCtr (loopNodeK K f) "L" ctr) := by
      rw [step_after_ok (loopGraphK K f) "L" s logs ctr (loopNodeK K f)
          (f s) rfl hnolim rfl,
        stepAfter_no_cond _ _ _ _ _ _ _ (fun _ => rfl),
        edgePhase_first (loopGraphK K f) "L" s (updateD s (f s)) _ _
          "L" [] (by rfl)]
    refine (runAux_next (loopGraphK K f) (fuel + r + 1) "L" s logs ctr "L"
      (updateD s (f s))
      (logs ++
        [{ node_id := "L", status := "success", input_state := s,
           output_state := updateD s (f s), error := none }])
      (bumpCtr (loopNodeK K f) "L" ctr) (by decide) hstep).trans ?_
    rw [ih (j + 1) fuel (updateD s (f s)) _ _ hc1 (by omega),
      List.append_assoc]
    rfl

/-- C2: a loop node with no loop predicate and bound `K`, to which control
keeps returning over an unconditional self-edge, fails with the
loop-limit error on exactly attempt `K+1` (the log shows `K` successes
then the error, nothing after), never earlier or later, and the failing
attempt does not invoke the node's function: the error entry's two
snapshots are the state after exactly `K` applications. -/
theorem C2_loop_limit_exact_attempt (K : Nat) (f : StateD → StateD)
    (s : StateD) (fuel : Nat) :
    run (loopGraphK K f) s (fuel + K + 1) =
      RunOutcome.err (limitMsg "L" K) (loopTrace f (limitMsg "L" K) K s)
    ∧ (loopTrace f (limitMsg "L" K) K s).map (fun e => e.status) =
        List.replicate K "success" ++ ["error"]
    ∧ (loopTrace f (limitMsg "L" K) K s).getLast? =
        some { node_id := "L", status := "error",
               input_state := iterUpd f K s,
               output_state := iterUpd f K s,
               error := some (limitMsg "L" K) } := by
  refine ⟨?_, loopTrace_statuses f (limitMsg "L" K) K s,
    loopTrace_getLast f (limitMsg "L" K) K s⟩
  show runAux (loopGraphK K f) (fuel + K + 1) "L" s [] [] = _
  exact loopGraphK_aux K f K 0 fuel s [] [] rfl (by omega)

/-- A trivial processing function. -/
def f0 : StateD → Except String StateD := fun _ => Except.ok []

/-- The empty graph. -/
def emptyGraph : WorkflowGraph := {}

/-- The graph produced by adding a single node whose id is the empty
string to the empty graph: its start node is set (to `""`). -/
def G9 : WorkflowGraph :=
  match add_node emptyGraph "" f0 with
  | Except.ok g => g
  | Except.error _ => emptyGraph

/-- Counterexample to C9 as stated: `G9` is built by one `add_node` call,
so its start node is set (implicitly, to the id of the first node added),
yet `run` raises `No start node defined` — because line 147 of the engine
is the falsy test `if not self.start_node`, which treats the empty-string
id as missing. So "whatever node id it is" fails for `""`. -/
theorem C9_counterexample :
    add_node emptyGraph "" f0 = Except.ok G9 ∧
    G9.start_node = some "" ∧
    run G9 [] 5 = RunOutcome.err "No start node defined" [] :=
  ⟨rfl, rfl, rfl⟩

/-- C9 amended: `run` raises `No start node defined` at entry precisely
when the start node is unset or is the empty string (the check is a
Python falsy test); for any other start id traversal begins at the start
node with fresh log and counters; and the first node added to a graph
with no start node becomes the implicit start node. -/
theorem C9_no_start_node_amended :
    (∀ (g : WorkflowGraph) (s : StateD) (fuel : Nat),
      g.start_node = none ∨ g.start_node = some "" →
      run g s fuel = RunOutcome.err "No start node defined" [])
    ∧ (∀ (g : WorkflowGraph) (s : StateD) (fuel : Nat) (st : String),
      g.start_node = some st → ¬ st = "" →
      run g s fuel = runAux g fuel st s [] [])
    ∧ (∀ (g : WorkflowGraph) (node_id : String)
      (fn : StateD → Except String StateD) (g2 : WorkflowGraph),
      g.start_node = none → add_node g node_id fn = Except.ok g2 →
      g2.start_node = some node_id) := by
  refine ⟨?_, ?_, ?_⟩
  · intro g s fuel h
    rcases h with h | h <;> simp [run, h]
  · intro g s fuel st h hne
    simp [run, h, hne]
  · intro g node_id fn g2 h1 h2
    unfold add_node at h2
    split at h2
    · cases h2
    · cases h2
      simp [h1]

/-- The graph produced by adding a single node `a` to the empty graph. -/
def G9ok : WorkflowGraph :=
  match add_node emptyGraph "a" f0 with
  | Except.ok g => g
  | Except.error _ => emptyGraph

/-- Witness for the amended C9 at concrete inputs: the empty graph raises,
a graph whose implicit start is `a` starts traversal at `a`, and that
start was set by the first `add_node`. -/
theorem C9_no_start_node_amended_witness :
    run emptyGraph [] 3 = RunOutcome.err "No start node defined" [] ∧
    run G9ok [] 2 = runAux G9ok 2 "a" [] [] [] ∧
    G9ok.start_node = some "a" :=
  ⟨C9_no_start_node_amended.1 emptyGraph [] 3 (Or.inl rfl),
   C9_no_start_node_amended.2.1 G9ok [] 2 "a" rfl (by decide),
   C9_no_start_node_amended.2.2 emptyGraph "a" f0 G9ok rfl rfl⟩

/-! ### The code-review workflow: evaluation lemmas and claim C8 -/

theorem getA_of_lookup {α : Type} (l : List (String × α)) (k : String)
    (v dflt : α) (h : lookupA l k = some v) : getA l k dflt = v := by
  simp [getA, h]

/-- The function names `extract_functions` collects. -/
def extractNames (code : String) : List String :=
  (splitOnC code "\n").filterMap defLineName

/-- The function `extract_functions` collects one name per line whose
stripped form starts with `def `. -/
theorem extractNames_length (code : String) :
    (extractNames code).length =
      ((splitOnC code "\n").filter
        (fun l => leadsWith "def ".data (trimC l).data)).length := by
  unfold extractNames
  induction splitOnC code "\n" with
  | nil => rfl
  | cons hd tl ih =>
    by_cases h : leadsWith "def ".data (trimC hd).data = true <;>
      simp [defLineName, h, List.filter_cons, ih]

theorem extract_functions_eval (s : StateD) (code : String) (q : ℚ)
    (hcode : lookupA s "code" = some (Value.str code))
    (hiter : asNumber (getA s "iteration" (Value.num 0)) = Except.ok q) :
    extract_functions s = Except.ok
      [("functions", Value.list (extractNames code)),
       ("function_count", Value.num ((extractNames code).length : ℚ)),
       ("iteration", Value.num (q + 1))] := by
  unfold extract_functions
  rw [getA_of_lookup s "code" _ _ hcode]
  dsimp only
  rw [hiter]
  rfl

theorem check_complexity_eval (s : StateD) (code : String)
    (hcode : lookupA s "code" = some (Value.str code)) :
    check_complexity s = Except.ok
      [("complexity_issues", Value.num
         ((((splitOnC code "\n").filter
           (fun line => indentLevel line > 8)).length : ℚ))),
       ("complexity_score", Value.num
         (max 0 (100 - (((splitOnC code "\n").filter
           (fun line => indentLevel line > 8)).length : ℚ) * 5)))] := by
  unfold check_complexity
  rw [getA_of_lookup s "code" _ _ hcode]

/-- The issue list `detect_issues` produces for code text `code` and
function count `fc`. -/
def detectList (code : String) (fc : ℚ) : List String :=
  (if countOcc code "\n" > 30 then ["Long function"] else []) ++
    (if (countOcc code "\x22\x22\x22" : ℚ) < fc
     then ["Missing docstrings"] else []) ++
    (if countOcc code "import" > 0 ∧ (countOcc code "import" : ℚ) > fc
     then ["Potential unused imports"] else [])

theorem detect_issues_eval (st : StateD) (code : String) (fc : ℚ)
    (hcode : lookupA st "code" = some (Value.str code))
    (hfc : asNumber (getA st "function_count" (Value.num 0)) =
      Except.ok fc) :
    detect_issues st = Except.ok
      [("issues", Value.list (detectList code fc)),
       ("issue_count", Value.num ((detectList code fc).length : ℚ))] := by
  unfold detect_issues
  rw [getA_of_lookup st "code" _ _ hcode]
  dsimp only
  rw [hfc]
  rfl

/-- The suggestion list `suggest_improvements` produces. -/
def suggestList (issues : List String) (cs ic : ℚ) : List String :=
  (if ic > 2 then ["Refactor into smaller functions"] else []) ++
    (if cs < 60 then ["Reduce nesting depth"] else []) ++
    (if issues.contains "Missing docstrings"
     then ["Add comprehensive docstrings"] else []) ++
    (if issues.contains "Potential unused imports"
     then ["Clean up imports"] else [])

theorem suggest_improvements_eval (st : StateD) (issues : List String)
    (cs ic : ℚ)
    (hiss : lookupA st "issues" = some (Value.list issues))
    (hcs : asNumber (getA st "complexity_score" (Value.num 50)) =
      Except.ok cs)
    (hic : asNumber (getA st "issue_count" (Value.num 0)) = Except.ok ic) :
    suggest_improvements st = Except.ok
      [("suggestions", Value.list (suggestList issues cs ic)),
       ("quality_score", Value.num
         (max 0 (min 100 (100 - ic * 10 - (max 0 (100 - cs)) * (1 / 10)))))] := by
  unfold suggest_improvements
  rw [getA_of_lookup st "issues" _ _ hiss]
  dsimp only
  rw [hcs]
  dsimp only
  rw [hic]
  rfl

/-- Code text with exactly two stripped lines starting with `def `. -/
def twoDefCode : String :=
  "def a():\n    return 1\ndef b():\n    return 2"

/-- Counterexample to C8 as stated: the initial state below has a `code`
value with exactly two `def` lines, yet `run` does not return — the
workflow's first node computes `state.get("iteration", 0) + 1`, and the
string-valued `iteration` key makes that raise `TypeError`, which the
engine logs as an error for `extract` and propagates. So the claim fails
for initial states whose `iteration` value is not a number. -/
theorem C8_counterexample :
    ((splitOnC twoDefCode "\n").filter
      (fun l => leadsWith "def ".data (trimC l).data)).length = 2 ∧
    run codeReviewGraph
      [("code", Value.str twoDefCode), ("iteration", Value.str "x")] 10 =
      RunOutcome.err "TypeError: str is not a number"
        [{ node_id := "extract", status := "error",
           input_state :=
             [("code", Value.str twoDefCode), ("iteration", Value.str "x")],
           output_state :=
             [("code", Value.str twoDefCode), ("iteration", Value.str "x")],
           error := some "TypeError: str is not a number" }] :=
  ⟨by decide, rfl⟩

theorem updateD_cons (s : StateD) (p : String × Value) (t : StateD) :
    updateD s (p :: t) = updateD (setA s p.1 p.2) t := rfl

theorem updateD_nil (s : StateD) : updateD s [] = s := rfl

/-- Function count computed by `extract_functions`. -/
def fcQ (code : String) : ℚ := ((extractNames code).length : ℚ)

/-- Deep-nesting count of `check_complexity`. -/
def ciQ (code : String) : ℚ :=
  (((splitOnC code "\n").filter (fun line => indentLevel line > 8)).length : ℚ)

/-- Complexity score of `check_complexity`. -/
def csQ (code : String) : ℚ := max 0 (100 - ciQ code * 5)

/-- Issue count of `detect_issues`. -/
def icQ (code : String) : ℚ := ((detectList code (fcQ code)).length : ℚ)

/-- Quality score of `suggest_improvements`. -/
def qsQ (code : String) : ℚ :=
  max 0 (min 100 (100 - icQ code * 10 - (max 0 (100 - csQ code)) * (1 / 10)))

/-- The partial state returned by `extract_functions`. -/
def exL (code : String) (q : ℚ) : StateD :=
  [("functions", Value.list (extractNames code)),
   ("function_count", Value.num (fcQ code)),
   ("iteration", Value.num (q + 1))]

/-- The partial state returned by `check_complexity`. -/
def cxL (code : String) : StateD :=
  [("complexity_issues", Value.num (ciQ code)),
   ("complexity_score", Value.num (csQ code))]

/-- The partial state returned by `detect_issues`. -/
def diL (code : String) : StateD :=
  [("issues", Value.list (detectList code (fcQ code))),
   ("issue_count", Value.num (icQ code))]

/-- The partial state returned by `suggest_improvements`. -/
def sgL (code : String) : StateD :=
  [("suggestions", Value.list
     (suggestList (detectList code (fcQ code)) (csQ code) (icQ code))),
   ("quality_score", Value.num (qsQ code))]

/-- Run state after `extract`. -/
def st1 (s : StateD) (code : String) (q : ℚ) : StateD :=
  updateD s (exL code q)

/-- Run state after `complexity`. -/
def st2 (s : StateD) (code : String) (q : ℚ) : StateD :=
  updateD (st1 s code q) (cxL code)

/-- Run state after `detect_issues`. -/
def st3 (s : StateD) (code : String) (q : ℚ) : StateD :=
  updateD (st2 s code q) (diL code)

/-- Run state after `suggest`. -/
def st4 (s : StateD) (code : String) (q : ℚ) : StateD :=
  updateD (st3 s code q) (sgL code)

/-- Log entry of the `extract` execution. -/
def le1 (s : StateD) (code : String) (q : ℚ) : ExecutionLog :=
  ⟨"extract", "success", s, st1 s code q, none⟩

/-- Log entry of the `complexity` execution. -/
def le2 (s : StateD) (code : String) (q : ℚ) : ExecutionLog :=
  ⟨"complexity", "success", st1 s code q, st2 s code q, none⟩

/-- Log entry of the `detect_issues` execution. -/
def le3 (s : StateD) (code : String) (q : ℚ) : ExecutionLog :=
  ⟨"detect_issues", "success", st2 s code q, st3 s code q, none⟩

/-- Log entry of the `suggest` execution. -/
def le4 (s : StateD) (code : String) (q : ℚ) : ExecutionLog :=
  ⟨"suggest", "success", st3 s code q, st4 s code q, none⟩

/-- C8 amended: for the code-review workflow (assembled exactly as stated)
and every initial state whose `code` value is text with exactly two
stripped `def ` lines **and whose `iteration` value, if present, is a
number** (otherwise `state.get("iteration", 0) + 1` raises, see the
counterexample), `run` returns a final state with `function_count = 2`
and a log of exactly four success entries in the node order
extract, complexity, detect_issues, suggest. -/
theorem C8_code_review_two_defs (s : StateD) (code : String) (fuel : Nat)
    (q : ℚ)
    (hcode : lookupA s "code" = some (Value.str code))
    (hdefs : ((splitOnC code "\n").filter
      (fun l => leadsWith "def ".data (trimC l).data)).length = 2)
    (hiter : asNumber (getA s "iteration" (Value.num 0)) = Except.ok q) :
    setup_code_review_workflow = Except.ok codeReviewGraph ∧
    ∃ fin logsL,
      run codeReviewGraph s (fuel + 4) = RunOutcome.ok fin logsL ∧
      lookupA fin "function_count" = some (Value.num 2) ∧
      logsL.map (fun e => (e.node_id, e.status)) =
        [("extract", "success"), ("complexity", "success"),
         ("detect_issues", "success"), ("suggest", "success")] := by
  have hlen : (extractNames code).length = 2 := by
    rw [extractNames_length]
    exact hdefs
  have hcode1 : lookupA (st1 s code q) "code" = some (Value.str code) := by
    simp [st1, exL, updateD_cons, updateD_nil, lookupA_setA, hcode]
  have hcode2 : lookupA (st2 s code q) "code" = some (Value.str code) := by
    simp [st2, cxL, updateD_cons, updateD_nil, lookupA_setA, hcode1]
  have hfc2 : asNumber (getA (st2 s code q) "function_count"
      (Value.num 0)) = Except.ok (fcQ code) := by
    have h : lookupA (st2 s code q) "function_count" =
        some (Value.num (fcQ code)) := by
      simp [st2, st1, cxL, exL, updateD_cons, updateD_nil, lookupA_setA]
    simp [getA, h, asNumber]
  have hiss3 : lookupA (st3 s code q) "issues" =
      some (Value.list (detectList code (fcQ code))) := by
    simp [st3, diL, updateD_cons, updateD_nil, lookupA_setA]
  have hcs3 : asNumber (getA (st3 s code q) "complexity_score"
      (Value.num 50)) = Except.ok (csQ code) := by
    have h : lookupA (st3 s code q) "complexity_score" =
        some (Value.num (csQ code)) := by
      simp [st3, st2, diL, cxL, updateD_cons, updateD_nil, lookupA_setA]
    simp [getA, h, asNumber]
  have hic3 : asNumber (getA (st3 s code q) "issue_count"
      (Value.num 0)) = Except.ok (icQ code) := by
    have h : lookupA (st3 s code q) "issue_count" =
        some (Value.num (icQ code)) := by
      simp [st3, diL, updateD_cons, updateD_nil, lookupA_setA]
    simp [getA, h, asNumber]
  have hfc4 : lookupA (st4 s code q) "function_count" =
      some (Value.num (fcQ code)) := by
    simp [st4, st3, st2, st1, sgL, diL, cxL, exL, updateD_cons, updateD_nil,
      lookupA_setA]
  have hev1 := extract_functions_eval s code q hcode hiter
  have hev2 := check_complexity_eval (st1 s code q) code hcode1
  have hev3 := detect_issues_eval (st2 s code q) code (fcQ code) hcode2 hfc2
  have hev4 := suggest_improvements_eval (st3 s code q)
    (detectList code (fcQ code)) (csQ code) (icQ code) hiss3 hcs3 hic3
  have hstep1 : step codeReviewGraph "extract" s [] [] =
      StepResult.next "complexity" (st1 s code q) [le1 s code q] [] := by
    rw [step_standard codeReviewGraph "extract" s [] []
      { id := "extract", fn := extract_functions } (exL code q) rfl rfl
      (by exact hev1)]
    exact edgePhase_first codeReviewGraph "extract" s
      (updateD s (exL code q)) _ _ "complexity" [] rfl
  have hstep2 : step codeReviewGraph "complexity" (st1 s code q)
      [le1 s code q] [] =
      StepResult.next "detect_issues" (st2 s code q)
        [le1 s code q, le2 s code q] [] := by
    rw [step_standard codeReviewGraph "complexity" (st1 s code q)
      [le1 s code q] [] { id := "complexity", fn := check_complexity }
      (cxL code) rfl rfl
      (by exact hev2)]
    exact edgePhase_first codeReviewGraph "complexity" (st1 s code q)
      (updateD (st1 s code q) (cxL code)) _ _ "detect_issues" [] rfl
  have hstep3 : step codeReviewGraph "detect_issues" (st2 s code q)
      [le1 s code q, le2 s code q] [] =
      StepResult.next "suggest" (st3 s code q)
        [le1 s code q, le2 s code q, le3 s code q] [] := by
    rw [step_standard codeReviewGraph "detect_issues" (st2 s code q)
      [le1 s code q, le2 s code q] []
      { id := "detect_issues", fn := detect_issues } (diL code) rfl rfl
      (by exact hev3)]
    exact edgePhase_first codeReviewGraph "detect_issues" (st2 s code q)
      (updateD (st2 s code q) (diL code)) _ _ "suggest" [] rfl
  have hstep4 : step codeReviewGraph "suggest" (st3 s code q)
      [le1 s code q, le2 s code q, le3 s code q] [] =
      StepResult.done (st4 s code q)
        [le1 s code q, le2 s code q, le3 s code q, le4 s code q] := by
    rw [step_standard codeReviewGraph "suggest" (st3 s code q)
      [le1 s code q, le2 s code q, le3 s code q] []
      { id := "suggest", fn := suggest_improvements } (sgL code) rfl rfl
      (by exact hev4)]
    exact edgePhase_nil codeReviewGraph "suggest" (st3 s code q)
      (updateD (st3 s code q) (sgL code)) _ _ rfl
  refine ⟨rfl, st4 s code q,
    [le1 s code q, le2 s code q, le3 s code q, le4 s code q], ?_, ?_, ?_⟩
  · exact (runAux_next codeReviewGraph (fuel + 3) "extract" s [] []
      _ _ _ _ (by decide) hstep1).trans
      ((runAux_next codeReviewGraph (fuel + 2) "complexity" _ _ _
        _ _ _ _ (by decide) hstep2).trans
        ((runAux_next codeReviewGraph (fuel + 1) "detect_issues" _ _ _
          _ _ _ _ (by decide) hstep3).trans
          (runAux_done codeReviewGraph fuel "suggest" _ _ _
            _ _ (by decide) hstep4)))
  · rw [hfc4]
    have h2 : fcQ code = 2 := by
      rw [fcQ, hlen]
      norm_num
    rw [h2]
  · rfl

/-- Witness for the amended C8 at a concrete input: the two-`def` sample
with no `iteration` key runs to completion with `function_count = 2` and
four success entries in node order. -/
theorem C8_code_review_two_defs_witness :
    setup_code_review_workflow = Except.ok codeReviewGraph ∧
    ∃ fin logsL,
      run codeReviewGraph [("code", Value.str twoDefCode)] 4 =
        RunOutcome.ok fin logsL ∧
      lookupA fin "function_count" = some (Value.num 2) ∧
      logsL.map (fun e => (e.node_id, e.status)) =
        [("extract", "success"), ("complexity", "success"),
         ("detect_issues", "success"), ("suggest", "success")] :=
  C8_code_review_two_defs [("code", Value.str twoDefCode)] twoDefCode 0 0
    rfl (by decide) rfl

/-! ### Heap model of `run` for the copy-on-entry claim (C6)

The claim is about Python object identity: `run` must copy the caller's
dict and never write through the caller's reference. To state it, `run`
is re-embedded with dict objects living in an explicit heap (a list of
dicts addressed by position): every `.copy()` allocates at the end of the
heap, `state.update(result)` writes in place at the live state's address,
and log entries record snapshot addresses. -/

/-- A heap of dict objects. -/
abbrev Heap := List StateD

/-- Dereference an address (addresses used by the model are always in
range). -/
def heapGet (h : Heap) (a : Nat) : StateD := (h.get? a).getD []

/-- Models `d.copy()`: allocate a fresh dict holding the value at `stA`; the new
object's address is `h.length`. -/
def hCopy (h : Heap) (stA : Nat) : Heap := h ++ [heapGet h stA]

/-- Models `state.update(result)`: in-place write at the live state's address. -/
def hWrite (h : Heap) (stA : Nat) (result : StateD) : Heap :=
  h.set stA (updateD (heapGet h stA) result)

/-- Log entry of the heap model: snapshots are recorded by address. -/
structure HLogE where
  node_id : String
  status : String
  input_addr : Nat
  output_addr : Nat
  error : Option String := none
deriving DecidableEq, Repr

/-- Run outcome of the heap model: on success the address of the live
state object that `run` returns. -/
inductive HOutcome where
  | ok (stateAddr : Nat) (logs : List HLogE)
  | err (msg : String) (logs : List HLogE)
  | out
deriving Repr

/-- The `while` loop of `run`, heap-passing: the live state stays at the
fixed address `stA` (Python never rebinds `state` after the entry copy);
each visit allocates an input snapshot, merges in place, allocates the
output snapshot for the log, and recurses. -/
def runHeapAux (g : WorkflowGraph) :
    Nat → String → Nat → List HLogE → Counters → Heap → Heap × HOutcome
  | 0, cur, stA, logs, _, h =>
    if cur = "" then (h, HOutcome.ok stA logs) else (h, HOutcome.out)
  | fuel + 1, cur, stA, logs, ctr, h =>
    if cur = "" then (h, HOutcome.ok stA logs)
    else
      match lookupA g.nodes cur with
      | none => (h, HOutcome.err ("KeyError: \x27" ++ cur ++ "\x27") logs)
      | some node =>
        if node.node_type = NodeType.loop ∧
            ctrGet (bumpCtr node cur ctr) cur > node.max_iterations ∧
            node.loop_condition.isNone = true then
          (hCopy (hCopy h stA) stA,
           HOutcome.err (limitMsg cur node.max_iterations)
             (logs ++ [⟨cur, "error", h.length, (hCopy h stA).length,
               some (limitMsg cur node.max_iterations)⟩]))
        else
          match node.fn (heapGet h stA) with
          | Except.error m =>
            (hCopy (hCopy h stA) stA,
             HOutcome.err m
               (logs ++ [⟨cur, "error", h.length, (hCopy h stA).length,
                 some m⟩]))
          | Except.ok result =>
            match node.node_type, node.loop_condition with
            | NodeType.loop, some cond =>
              match cond (heapGet (hWrite (hCopy h stA) stA result) stA) with
              | Except.error m =>
                (hCopy (hCopy (hWrite (hCopy h stA) stA result) stA) stA,
                 HOutcome.err m
                   (logs ++
                     [⟨cur, "success", h.length,
                       (hWrite (hCopy h stA) stA result).length, none⟩,
                      ⟨cur, "error", h.length,
                       (hCopy (hWrite (hCopy h stA) stA result) stA).length,
                       some m⟩]))
              | Except.ok true =>
                runHeapAux g fuel cur stA
                  (logs ++ [⟨cur, "success", h.length,
                    (hWrite (hCopy h stA) stA result).length, none⟩])
                  (bumpCtr node cur ctr)
                  (hCopy (hWrite (hCopy h stA) stA result) stA)
              | Except.ok false =>
                match getNextNodes g cur
                    (heapGet (hWrite (hCopy h stA) stA result) stA) with
                | Except.error m =>
                  (hCopy (hCopy (hWrite (hCopy h stA) stA result) stA) stA,
                   HOutcome.err m
                     (logs ++
                       [⟨cur, "success", h.length,
                         (hWrite (hCopy h stA) stA result).length, none⟩,
                        ⟨cur, "error", h.length,
                         (hCopy (hWrite (hCopy h stA) stA result)
                           stA).length, some m⟩]))
                | Except.ok [] =>
                  (hCopy (hWrite (hCopy h stA) stA result) stA,
                   HOutcome.ok stA
                     (logs ++ [⟨cur, "success", h.length,
                       (hWrite (hCopy h stA) stA result).length, none⟩]))
                | Except.ok (n :: _) =>
                  runHeapAux g fuel n stA
                    (logs ++ [⟨cur, "success", h.length,
                      (hWrite (hCopy h stA) stA result).length, none⟩])
                    (setA (bumpCtr node cur ctr) cur 0)
                    (hCopy (hWrite (hCopy h stA) stA result) stA)
            | _, _ =>
              match getNextNodes g cur
                  (heapGet (hWrite (hCopy h stA) stA result) stA) with
              | Except.error m =>
                (hCopy (hCopy (hWrite (hCopy h stA) stA result) stA) stA,
                 HOutcome.err m
                   (logs ++
                     [⟨cur, "success", h.length,
                       (hWrite (hCopy h stA) stA result).length, none⟩,
                      ⟨cur, "error", h.length,
                       (hCopy (hWrite (hCopy h stA) stA result) stA).length,
                       some m⟩]))
              | Except.ok [] =>
                (hCopy (hWrite (hCopy h stA) stA result) stA,
                 HOutcome.ok stA
                   (logs ++ [⟨cur, "success", h.length,
                     (hWrite (hCopy h stA) stA result).length, none⟩]))
              | Except.ok (n :: _) =>
                runHeapAux g fuel n stA
                  (logs ++ [⟨cur, "success", h.length,
                    (hWrite (hCopy h stA) stA result).length, none⟩])
                  (bumpCtr node cur ctr)
                  (hCopy (hWrite (hCopy h stA) stA result) stA)

/-- Models `WorkflowGraph.run`, heap-passing: after the start-node check, line
151 copies the caller's dict (at `initA`) into a fresh object, and the
whole run works on that object's address. -/
def runHeap (g : WorkflowGraph) (fuel : Nat) (h : Heap) (initA : Nat) :
    Heap × HOutcome :=
  match g.start_node with
  | none => (h, HOutcome.err "No start node defined" [])
  | some st =>
    if st = "" then (h, HOutcome.err "No start node defined" [])
    else runHeapAux g fuel st h.length [] [] (hCopy h initA)

theorem get?_hCopy (h : Heap) (stA a : Nat) (ha : a < h.length) :
    (hCopy h stA).get? a = h.get? a := List.get?_append ha

theorem length_hCopy (h : Heap) (stA : Nat) :
    (hCopy h stA).length = h.length + 1 := by simp [hCopy]

theorem get?_hWrite (h : Heap) (stA : Nat) (result : StateD) (a : Nat)
    (ha : ¬ a = stA) : (hWrite h stA result).get? a = h.get? a :=
  List.get?_set_ne _ _ (fun hh => ha hh.symm)

theorem length_hWrite (h : Heap) (stA : Nat) (result : StateD) :
    (hWrite h stA result).length = h.length :=
  List.length_set _ _ _

/-- Frame property of the heap-passing loop: every allocation happens at
the end of the heap and every in-place write happens at the live state's
address `stA`, so all addresses below a bound `n ≤ stA` that were in
range keep their contents, and the heap never shrinks. -/
theorem runHeapAux_frame (g : WorkflowGraph) (n : Nat) :
    ∀ (fuel : Nat) (cur : String) (stA : Nat) (logs : List HLogE)
      (ctr : Counters) (h : Heap),
      n ≤ h.length → n ≤ stA →
      (∀ a, a < n →
        (runHeapAux g fuel cur stA logs ctr h).1.get? a = h.get? a)
      ∧ n ≤ (runHeapAux g fuel cur stA logs ctr h).1.length := by
  intro fuel
  induction fuel with
  | zero =>
    intro cur stA logs ctr h hn hsa
    unfold runHeapAux
    split
    · exact ⟨fun a _ => rfl, hn⟩
    · exact ⟨fun a _ => rfl, hn⟩
  | succ f ih =>
    intro cur stA logs ctr h hn hsa
    have h2pres : ∀ a, a < n → (hCopy (hCopy h stA) stA).get? a = h.get? a := by
      intro a ha
      rw [get?_hCopy _ _ _ (by rw [length_hCopy]; omega),
        get?_hCopy _ _ _ (by omega)]
    have h3len : ∀ result : StateD,
        n ≤ (hCopy (hWrite (hCopy h stA) stA result) stA).length := by
      intro result
      rw [length_hCopy, length_hWrite, length_hCopy]
      omega
    have h3pres : ∀ (result : StateD) (a : Nat), a < n →
        (hCopy (hWrite (hCopy h stA) stA result) stA).get? a = h.get? a := by
      intro result a ha
      rw [get?_hCopy _ _ _ (by rw [length_hWrite, length_hCopy]; omega),
        get?_hWrite _ _ _ _ (by omega),
        get?_hCopy _ _ _ (by omega)]
    have h4pres : ∀ (result : StateD) (a : Nat), a < n →
        (hCopy (hCopy (hWrite (hCopy h stA) stA result) stA) stA).get? a =
          h.get? a := by
      intro result a ha
      rw [get?_hCopy _ _ _ (by
        rw [length_hCopy, length_hWrite, length_hCopy]; omega)]
      exact h3pres result a ha
    unfold runHeapAux
    split
    · exact ⟨fun a _ => rfl, hn⟩
    · split
      · exact ⟨fun a _ => rfl, hn⟩
      · split
        · exact ⟨h2pres, by rw [length_hCopy, length_hCopy]; omega⟩
        · split
          · exact ⟨h2pres, by rw [length_hCopy, length_hCopy]; omega⟩
          · split
            · split
              · exact ⟨h4pres _, by
                  rw [length_hCopy, length_hCopy, length_hWrite,
                    length_hCopy]; omega⟩
              · exact ⟨fun a ha =>
                  ((ih _ _ _ _ _ (h3len _) hsa).1 a ha).trans
                    (h3pres _ a ha),
                  (ih _ _ _ _ _ (h3len _) hsa).2⟩
              · split
                · exact ⟨h4pres _, by
                    rw [length_hCopy, length_hCopy, length_hWrite,
                      length_hCopy]; omega⟩
                · exact ⟨h3pres _, h3len _⟩
                · exact ⟨fun a ha =>
                    ((ih _ _ _ _ _ (h3len _) hsa).1 a ha).trans
                      (h3pres _ a ha),
                    (ih _ _ _ _ _ (h3len _) hsa).2⟩
            · split
              · exact ⟨h4pres _, by
                  rw [length_hCopy, length_hCopy, length_hWrite,
                    length_hCopy]; omega⟩
              · exact ⟨h3pres _, h3len _⟩
              · exact ⟨fun a ha =>
                  ((ih _ _ _ _ _ (h3len _) hsa).1 a ha).trans
                    (h3pres _ a ha),
                  (ih _ _ _ _ _ (h3len _) hsa).2⟩

/-- The final state a successful heap run returns lives at the run's own
live-state address (Python never rebinds `state`). -/
theorem runHeapAux_ok_addr (g : WorkflowGraph) :
    ∀ (fuel : Nat) (cur : String) (stA : Nat) (logs : List HLogE)
      (ctr : Counters) (h : Heap) (a : Nat) (l : List HLogE),
      (runHeapAux g fuel cur stA logs ctr h).2 = HOutcome.ok a l →
      a = stA := by
  intro fuel
  induction fuel with
  | zero =>
    intro cur stA logs ctr h a l
    unfold runHeapAux
    split
    · intro hh
      simp at hh
      exact hh.1.symm
    · intro hh
      simp at hh
  | succ f ih =>
    intro cur stA logs ctr h a l
    unfold runHeapAux
    split
    · intro hh
      simp at hh
      exact hh.1.symm
    · split
      · intro hh
        simp at hh
      · split
        · intro hh
          simp at hh
        · split
          · intro hh
            simp at hh
          · split
            · split
              · intro hh
                simp at hh
              · exact ih _ _ _ _ _ a l
              · split
                · intro hh
                  simp at hh
                · intro hh
                  simp at hh
                  exact hh.1.symm
                · exact ih _ _ _ _ _ a l
            · split
              · intro hh
                simp at hh
              · intro hh
                simp at hh
                exact hh.1.symm
              · exact ih _ _ _ _ _ a l

/-- C6: `run` copies the caller-supplied initial state at entry. For every
graph, heap and in-range caller address: after the run, every
pre-existing object — the caller's map in particular — holds its original
value; and the final state of a successful run lives at a fresh address
distinct from the caller's, so overwriting the caller's object after
`run` returns does not alter the returned final state. The node functions
are arbitrary (quantified with `g`). -/
theorem C6_run_copies_initial_state (g : WorkflowGraph) (fuel : Nat)
    (h : Heap) (initA : Nat) (s0 : StateD)
    (hinit : h.get? initA = some s0) :
    (∀ a, a < h.length →
      (runHeap g fuel h initA).1.get? a = h.get? a)
    ∧ (runHeap g fuel h initA).1.get? initA = some s0
    ∧ (∀ a l, (runHeap g fuel h initA).2 = HOutcome.ok a l →
        ¬ a = initA ∧
        ∀ d : StateD,
          ((runHeap g fuel h initA).1.set initA d).get? a =
            (runHeap g fuel h initA).1.get? a) := by
  have hlt : initA < h.length := by
    rcases List.get?_eq_some.mp hinit with ⟨hl, -⟩
    exact hl
  unfold runHeap
  split
  · exact ⟨fun a _ => rfl, hinit, fun a l hh => by simp at hh⟩
  · split
    · exact ⟨fun a _ => rfl, hinit, fun a l hh => by simp at hh⟩
    · rename_i st heq hne
      have hframe := runHeapAux_frame g h.length fuel st h.length [] []
        (hCopy h initA) (by rw [length_hCopy]; omega) (le_refl _)
      have hpres : ∀ a, a < h.length →
          (runHeapAux g fuel st h.length [] [] (hCopy h initA)).1.get? a =
            h.get? a := by
        intro a ha
        rw [hframe.1 a ha, get?_hCopy _ _ _ ha]
      refine ⟨hpres, by rw [hpres initA hlt]; exact hinit, ?_⟩
      intro a l hok
      have ha := runHeapAux_ok_addr g fuel st h.length [] []
        (hCopy h initA) a l hok
      constructor
      · omega
      · intro d
        exact List.get?_set_ne d _ (by omega)

/-- Witness for C6 at a concrete input: after running the two-node chain
from the dict at address 0, that dict still holds its original value. -/
theorem C6_run_copies_initial_state_witness :
    (runHeap chainGraph 5 [[("init", Value.num 1)]] 0).1.get? 0 =
      some [("init", Value.num 1)] :=
  (C6_run_copies_initial_state chainGraph 5 [[("init", Value.num 1)]] 0
    [("init", Value.num 1)] rfl).2.1

end WfEngine

